import Mathlib

/-!
# FlowGuard (`assets/js/app.js`): a shallow embedding

The script keeps one global `state` object (tasks, focus-session counter, mood entries and a
countdown timer), mirrors three slices of it into `localStorage`, and redraws a few DOM nodes
after every mutation.  The embedding below passes that global state explicitly as a `World`.

Modelling conventions.

* A JavaScript string is the list of its UTF-16 code units (`JSString`).
* Clock readings (`Date.now()`), the timestamps stored in tasks and mood entries and the
  focus counter are exact integers (`Int`).
* A number that comes from text typed into a field is a double (`JSNumber`): `parseInt` rounds
  to the nearest double and overflows to `Infinity`, and the timer arithmetic fed by it
  (`minutes * 60`, `endTime`, `remaining`) rounds the same way.
* Every read of `Date.now()`, the generated task id, the answer to `window.confirm` and the
  values typed into form fields are inputs of the handler that reads them.
* `JSON.stringify` is not spelled out: `localStorage` records which value was serialised.
* Of the DOM only the nodes some handler reads back, or whose content is a list of entries, are
  kept: the task list, the mood log, the stale-data alert and the session-length field.
-/

namespace FlowGuard

/-! ## Data model -/

/-- A JavaScript string, as its sequence of UTF-16 code units. -/
abbrev JSString := List Nat

/-- A JavaScript number as far as the timer and `parseInt` can produce one: `NaN`, `Infinity`
or `-Infinity`, or a double whose value is an integer (`-0` is not told apart from `0`). -/
inductive JSNumber where
  | nan
  | infinity (negative : Bool)
  | finite (value : Int)
  deriving DecidableEq, Repr

/-- An entry of `state.tasks`. -/
structure Task where
  id : JSString
  title : JSString
  tag : JSString
  completed : Bool
  createdAt : Int
  completedAt : Option Int
  deriving DecidableEq, Repr

/-- An entry of `state.moods`. -/
structure MoodEntry where
  score : Int
  note : JSString
  timestamp : Int
  deriving DecidableEq, Repr

/-- The object `state.timer`; `interval` is `none` for `null`. -/
structure Timer where
  remainingSeconds : JSNumber
  interval : Option Nat
  isRunning : Bool
  deriving DecidableEq, Repr

/-- The global `state` object. -/
structure State where
  tasks : List Task
  focusSessions : Int
  moods : List MoodEntry
  timer : Timer
  deriving DecidableEq, Repr

/-- The three entries of `STORAGE_KEYS`. -/
inductive StorageKey where
  | tasks
  | focus
  | moods
  deriving DecidableEq, Repr

/-- What a `localStorage` slot holds: text from an earlier page, or the serialisation
(`JSON.stringify`) of a value written by `persist`. -/
inductive Stored where
  | raw (text : JSString)
  | tasks (data : List Task)
  | focus (data : Int)
  | moods (data : List MoodEntry)
  deriving DecidableEq, Repr

/-- The three `localStorage` slots the script uses; `none` is an absent key. -/
structure LocalStorage where
  flowguard_tasks : Option Stored
  flowguard_focus : Option Stored
  flowguard_moods : Option Stored
  deriving DecidableEq, Repr

/-- A child of the `#task-list` element. -/
inductive ListItem where
  | emptyState
  | taskItem (task : Task)
  deriving DecidableEq, Repr

/-- A child of the `#mood-log` element. -/
inductive LogItem where
  | emptyState
  | moodEntry (entry : MoodEntry)
  deriving DecidableEq, Repr

/-- The global state together with the parts of the host the script acts on.

* `intervals`: the repeating callbacks registered with `window.setInterval` and not yet
  cleared, each with its handle and the `endTime` captured by its closure;
* `taskList`, `moodLog`: the children of `#task-list` and `#mood-log`;
* `staleAlert`: the `hidden` flag of `#stale-alert`, `none` when the element is missing;
* `timerLength`: the value of the `#timer-length` field. -/
structure World where
  state : State
  localStorage : LocalStorage
  intervals : List (Nat × JSNumber)
  taskList : List ListItem
  moodLog : List LogItem
  staleAlert : Option Bool
  timerLength : JSString
  deriving DecidableEq, Repr

/-- The `state` literal of lines 28-37. -/
def initialState : State :=
  { tasks := [], focusSessions := 0, moods := [],
    timer := { remainingSeconds := .finite (25 * 60), interval := none, isRunning := false } }

/-! ## Host functions the script calls -/

/-- The characters removed by `String.prototype.trim`: ECMAScript `WhiteSpace` and
`LineTerminator`. -/
def isWhiteSpace (c : Nat) : Bool :=
  c = 0x9 || c = 0xA || c = 0xB || c = 0xC || c = 0xD || c = 0x20 || c = 0xA0 || c = 0x1680 ||
  (0x2000 ≤ c && c ≤ 0x200A) || c = 0x2028 || c = 0x2029 || c = 0x202F || c = 0x205F ||
  c = 0x3000 || c = 0xFEFF

/-- Host function `String.prototype.trim`. -/
def trim (s : JSString) : JSString :=
  ((s.dropWhile isWhiteSpace).reverse.dropWhile isWhiteSpace).reverse

/-- Value of a decimal digit code unit. -/
def digitValue (c : Nat) : Option Nat :=
  if 48 ≤ c ∧ c ≤ 57 then some (c - 48) else none

/-- The longest prefix of decimal digits, as the list of digit values. -/
def takeDigits : JSString → List Nat
  | [] => []
  | c :: cs =>
    match digitValue c with
    | some d => d :: takeDigits cs
    | none => []

/-- The nearest double to the natural number `a`, ties to the even significand, with an
unbounded exponent: the top 53 bits of `a`, rounded.  The result is `2 ^ 1024` or more exactly
when the rounding overflows. -/
def nearestDoubleNat (a : Nat) : Nat :=
  let shift := Nat.log2 a - 52
  let q := a / 2 ^ shift
  let r := a % 2 ^ shift
  if 2 * r > 2 ^ shift ∨ (2 * r = 2 ^ shift ∧ q % 2 = 1) then (q + 1) * 2 ^ shift
  else q * 2 ^ shift

/-- The double that an arithmetic result with the exact integer value `n` rounds to.  Integers
up to `2 ^ 53` in size are doubles themselves (lemma `nearestDoubleNat_of_le`). -/
def toDouble (n : Int) : JSNumber :=
  if -(2 ^ 53) ≤ n ∧ n ≤ 2 ^ 53 then .finite n
  else if nearestDoubleNat n.natAbs < 2 ^ 1024 then
    .finite (if n < 0 then -(nearestDoubleNat n.natAbs : Int) else nearestDoubleNat n.natAbs)
  else .infinity (decide (n < 0))

/-- The nearest double to the quotient `a / b`, ties to even, for `a ≥ b > 0`. -/
def nearestDoubleQuot (a b : Nat) : ℚ :=
  if 52 ≤ Nat.log2 (a / b) then
    let shift := Nat.log2 (a / b) - 52
    let q := a / (b * 2 ^ shift)
    let r := a % (b * 2 ^ shift)
    if 2 * r > b * 2 ^ shift ∨ (2 * r = b * 2 ^ shift ∧ q % 2 = 1) then
      (((q + 1) * 2 ^ shift : Nat) : ℚ)
    else ((q * 2 ^ shift : Nat) : ℚ)
  else
    let shift := 52 - Nat.log2 (a / b)
    let q := a * 2 ^ shift / b
    let r := a * 2 ^ shift % b
    if 2 * r > b ∨ (2 * r = b ∧ q % 2 = 1) then ((q + 1 : Nat) : ℚ) / ((2 ^ shift : Nat) : ℚ)
    else ((q : Nat) : ℚ) / ((2 ^ shift : Nat) : ℚ)

/-- Host function `Number.isFinite`. -/
def JSNumber.isFinite : JSNumber → Bool
  | .finite _ => true
  | _ => false

/-- Unary minus. -/
def JSNumber.neg : JSNumber → JSNumber
  | .nan => .nan
  | .infinity negative => .infinity (!negative)
  | .finite a => .finite (-a)

/-- The sum `x + y` of two doubles. -/
def JSNumber.add : JSNumber → JSNumber → JSNumber
  | .nan, _ => .nan
  | _, .nan => .nan
  | .finite a, .finite b => toDouble (a + b)
  | .infinity negative, .finite _ => .infinity negative
  | .finite _, .infinity negative => .infinity negative
  | .infinity n₁, .infinity n₂ => if n₁ = n₂ then .infinity n₁ else .nan

/-- The difference `x - y` of two doubles. -/
def JSNumber.sub (x y : JSNumber) : JSNumber :=
  x.add y.neg

/-- The product `x * y` of two doubles. -/
def JSNumber.mul : JSNumber → JSNumber → JSNumber
  | .nan, _ => .nan
  | _, .nan => .nan
  | .finite a, .finite b => toDouble (a * b)
  | .infinity negative, .finite b =>
    if b = 0 then .nan else .infinity (negative != decide (b < 0))
  | .finite a, .infinity negative =>
    if a = 0 then .nan else .infinity (negative != decide (a < 0))
  | .infinity n₁, .infinity n₂ => .infinity (n₁ != n₂)

/-- The comparison `x < y`; it is false when either side is `NaN`. -/
def JSNumber.lt : JSNumber → JSNumber → Bool
  | .nan, _ => false
  | _, .nan => false
  | .finite a, .finite b => decide (a < b)
  | .infinity negative, .finite _ => negative
  | .finite _, .infinity negative => !negative
  | .infinity n₁, .infinity n₂ => n₁ && !n₂

/-- The comparison `x <= y`; it is false when either side is `NaN`. -/
def JSNumber.le : JSNumber → JSNumber → Bool
  | .nan, _ => false
  | _, .nan => false
  | .finite a, .finite b => decide (a ≤ b)
  | .infinity negative, .finite _ => negative
  | .finite _, .infinity negative => !negative
  | .infinity n₁, .infinity n₂ => n₁ || !n₂

/-- Host function `Math.max(x, y)`: `NaN` when either argument is. -/
def JSNumber.max : JSNumber → JSNumber → JSNumber
  | .nan, _ => .nan
  | _, .nan => .nan
  | x, y => if x.lt y then y else x

/-- The value of `Math.ceil(x / 1000)`.  For `|x| ≤ 2 ^ 53` the ceiling of the rounded
quotient is the ceiling of the exact one: the quotient is below `2 ^ 44`, so rounding moves it
by at most `2 ^ -10`, while a quotient that is not an integer is at least `1 / 1000` away from
the next integer (lemma `ceil_nearestDoubleQuot`; for `0 < |x| < 1000` the quotient and its
double both lie strictly between 0 and 1 in size). -/
def JSNumber.ceilDivThousand : JSNumber → JSNumber
  | .nan => .nan
  | .infinity negative => .infinity negative
  | .finite d =>
    if -(2 ^ 53) ≤ d ∧ d ≤ 2 ^ 53 then .finite ⌈(d : ℚ) / 1000⌉
    else if d < 0 then .finite ⌈-(nearestDoubleQuot d.natAbs 1000)⌉
    else .finite ⌈nearestDoubleQuot d.natAbs 1000⌉

/-- Host function `Number.parseInt(value, 10)`: leading white space is skipped, one sign is
accepted, the longest run of decimal digits is read and its value, with every digit counted,
is rounded to a double.  The result is `NaN` when there is no digit and `Infinity` or
`-Infinity` when the value is too large for a double. -/
def parseInt (value : JSString) : JSNumber :=
  let s := value.dropWhile isWhiteSpace
  let negative := s.head? = some 45
  let body := if s.head? = some 45 ∨ s.head? = some 43 then s.tail else s
  match takeDigits body with
  | [] => .nan
  | ds =>
    let n : Int := (ds.foldl (fun acc d => 10 * acc + d) 0 : Nat)
    toDouble (if negative then -n else n)

/-- Host function `Array.prototype.sort(cmp)` for a consistent comparator: the stable sort, in which `a`
stays before `b` when `cmp a b ≤ 0`. -/
def arraySort {α : Type} (cmp : α → α → Int) (xs : List α) : List α :=
  xs.insertionSort (fun a b => cmp a b ≤ 0)

/-- Host function `Math.max(...xs)` for a non-empty argument list `x, xs`. -/
def mathMax (x : Int) (xs : List Int) : Int :=
  xs.foldl max x

/-- A handle returned by `window.setInterval`: a positive number not in use. -/
def freshHandle (intervals : List (Nat × JSNumber)) : Nat :=
  (intervals.map Prod.fst).foldr max 0 + 1

/-- Host function `window.clearInterval(handle)`; clearing `null` does nothing. -/
def clearInterval (intervals : List (Nat × JSNumber)) : Option Nat → List (Nat × JSNumber)
  | none => intervals
  | some h => intervals.filter (fun p => p.1 ≠ h)

/-! ## The script -/

/-- Function `persist(key, data)`, line 59. -/
def persist (w : World) (key : StorageKey) (data : Stored) : World :=
  match key with
  | .tasks => { w with localStorage := { w.localStorage with flowguard_tasks := some data } }
  | .focus => { w with localStorage := { w.localStorage with flowguard_focus := some data } }
  | .moods => { w with localStorage := { w.localStorage with flowguard_moods := some data } }

/-- The class `[\u0000-\u001F\u007F-\u009F]` of line 64. -/
def isControl (c : Nat) : Bool :=
  c ≤ 0x1F || (0x7F ≤ c && c ≤ 0x9F)

/-- Function `sanitizeText(value)`, line 63. -/
def sanitizeText (value : JSString) : JSString :=
  trim (value.filter (fun c => !isControl c))

/-- Host function `Number(flag)` for a boolean. -/
def boolToNumber (b : Bool) : Int := if b then 1 else 0

/-- The comparator of line 80:
`Number(a.completed) - Number(b.completed) || b.createdAt - a.createdAt`. -/
def compareTasks (a b : Task) : Int :=
  if boolToNumber a.completed - boolToNumber b.completed ≠ 0 then
    boolToNumber a.completed - boolToNumber b.completed
  else b.createdAt - a.createdAt

/-- Function `renderTasks()`, line 67.  The sort of line 80 is in place: it reorders `state.tasks`. -/
def renderTasks (w : World) : World :=
  if w.state.tasks.length = 0 then
    { w with taskList := [ListItem.emptyState] }
  else
    let sorted := arraySort compareTasks w.state.tasks
    { w with state := { w.state with tasks := sorted }, taskList := sorted.map ListItem.taskItem }

/-- The array `timestamps` of lines 144-147. -/
def timestamps (w : World) : List Int :=
  w.state.tasks.map (fun task => task.createdAt) ++
    w.state.moods.map (fun entry => entry.timestamp)

/-- The value `lastEntry` of line 149: `timestamps.length ? Math.max(...timestamps) : 0`. -/
def lastEntry (w : World) : Int :=
  match timestamps w with
  | [] => 0
  | x :: xs => mathMax x xs

/-- The value `daysSinceUpdate` of line 156, for the clock reading `now`. -/
def daysSinceUpdate (w : World) (now : Int) : ℚ :=
  ((now - lastEntry w : Int) : ℚ) / (1000 * 60 * 60 * 24)

/-- Function `updateStaleIndicator()`, line 140; `now` is its `Date.now()`. -/
def updateStaleIndicator (w : World) (now : Int) : World :=
  match w.staleAlert with
  | none => w
  | some _ =>
    if lastEntry w = 0 then { w with staleAlert := some true }
    else { w with staleAlert := some (decide (daysSinceUpdate w now < 3)) }

/-- Function `updateStats()`, line 124: three text nodes are rewritten, then the stale indicator. -/
def updateStats (w : World) (now : Int) : World :=
  updateStaleIndicator w now

/-- The text `"Общее"` of line 164. -/
def defaultTag : JSString := [1054, 1073, 1097, 1077, 1077]

/-- Function `addTask(event)`, line 160.  `titleValue` and `tagValue` are the values of the two form
fields, `id` the generated identifier, `now` the `Date.now()` of line 176 and `nowStats` the
one read by `updateStats`.  The `focus()` and `reset()` calls act on nodes outside `World`. -/
def addTask (w : World) (titleValue tagValue id : JSString) (now nowStats : Int) : World :=
  let title := sanitizeText titleValue
  let tag := if sanitizeText tagValue = [] then defaultTag else sanitizeText tagValue
  if title = [] then w
  else
    let task : Task :=
      { id := id, title := title, tag := tag, completed := false, createdAt := now,
        completedAt := none }
    let w1 := { w with state := { w.state with tasks := w.state.tasks ++ [task] } }
    let w2 := persist w1 StorageKey.tasks (Stored.tasks w1.state.tasks)
    updateStats (renderTasks w2) nowStats

/-- Lines 191-194 applied to the task object `task`. -/
def toggled (task : Task) (now : Int) : Task :=
  { task with
    completed := !task.completed,
    completedAt := if (!task.completed) = true then some now else task.completedAt }

/-- The array after lines 191-194 have mutated the object found by line 188, the first entry
whose id is `id`. -/
def toggleFirst (id : JSString) (now : Int) : List Task → List Task
  | [] => []
  | entry :: rest =>
    if entry.id = id then toggled entry now :: rest else entry :: toggleFirst id now rest

/-- Function `toggleTask(id)`, line 187. -/
def toggleTask (w : World) (id : JSString) (now nowStats : Int) : World :=
  match w.state.tasks.find? (fun entry => entry.id = id) with
  | none => w
  | some _ =>
    let w1 := { w with state := { w.state with tasks := toggleFirst id now w.state.tasks } }
    let w2 := persist w1 StorageKey.tasks (Stored.tasks w1.state.tasks)
    updateStats (renderTasks w2) nowStats

/-- Function `deleteTask(id)`, line 201. -/
def deleteTask (w : World) (id : JSString) (nowStats : Int) : World :=
  let w1 :=
    { w with state := { w.state with tasks := w.state.tasks.filter (fun entry => entry.id ≠ id) } }
  let w2 := persist w1 StorageKey.tasks (Stored.tasks w1.state.tasks)
  updateStats (renderTasks w2) nowStats

/-- Function `startTimer()`, line 214; `now` is the `Date.now()` of line 218.  The callback handed to
`setInterval` is recorded by the `endTime` it closes over. -/
def startTimer (w : World) (now : Int) : World :=
  if w.state.timer.isRunning then w
  else
    let endTime := (JSNumber.finite now).add (w.state.timer.remainingSeconds.mul (.finite 1000))
    let handle := freshHandle w.intervals
    { w with
      state := { w.state with
        timer := { w.state.timer with isRunning := true, interval := some handle } },
      intervals := w.intervals ++ [(handle, endTime)] }

/-- Function `pauseTimer()`, line 231. -/
def pauseTimer (w : World) : World :=
  if !w.state.timer.isRunning then w
  else
    { w with
      state := { w.state with timer := { w.state.timer with isRunning := false, interval := none } },
      intervals := clearInterval w.intervals w.state.timer.interval }

/-- The right-hand side of lines 241 and 248:
`Number.isFinite(minutes) ? minutes * 60 : 25 * 60` with `minutes` parsed from the field. -/
def sessionSeconds (timerLength : JSString) : JSNumber :=
  if (parseInt timerLength).isFinite then (parseInt timerLength).mul (.finite 60)
  else .finite (25 * 60)

/-- Function `resetTimer()`, line 238. -/
def resetTimer (w : World) : World :=
  let w1 := pauseTimer w
  { w1 with
    state := { w1.state with
      timer := { w1.state.timer with remainingSeconds := sessionSeconds w1.timerLength } } }

/-- Function `completeTimerCycle()`, line 245; `nowStats` is the `Date.now()` read by `updateStats`. -/
def completeTimerCycle (w : World) (nowStats : Int) : World :=
  let w1 := pauseTimer w
  let w2 :=
    { w1 with
      state := { w1.state with
        timer := { w1.state.timer with remainingSeconds := sessionSeconds w1.timerLength } } }
  let w3 := { w2 with state := { w2.state with focusSessions := w2.state.focusSessions + 1 } }
  let w4 := persist w3 StorageKey.focus (Stored.focus w3.state.focusSessions)
  updateStats w4 nowStats

/-- The value `remaining` of line 221: `Math.max(0, Math.ceil((endTime - Date.now()) / 1000))`. -/
def remainingAt (endTime : JSNumber) (now : Int) : JSNumber :=
  JSNumber.max (.finite 0) (endTime.sub (.finite now)).ceilDivThousand

/-- One run of the callback of lines 220-228 whose closure holds `endTime`. -/
def timerCallback (w : World) (endTime : JSNumber) (now nowStats : Int) : World :=
  let remaining := remainingAt endTime now
  let w1 :=
    { w with state := { w.state with timer := { w.state.timer with remainingSeconds := remaining } } }
  if remaining.le (.finite 0) then completeTimerCycle w1 nowStats else w1

/-- The host fires the interval `handle` at clock reading `now`; an interval that is not
registered does not fire. -/
def tick (w : World) (handle : Nat) (now nowStats : Int) : World :=
  match w.intervals.lookup handle with
  | none => w
  | some endTime => timerCallback w endTime now nowStats

/-- The text `"25"` of line 259. -/
def defaultLength : JSString := [50, 53]

/-- Function `handleTimerLengthChange()`, line 256; `now` is read by `startTimer` when it restarts. -/
def handleTimerLengthChange (w : World) (now : Int) : World :=
  if !(parseInt w.timerLength).isFinite || (parseInt w.timerLength).lt (.finite 5) ||
      (JSNumber.finite 60).lt (parseInt w.timerLength) then
    { w with
      timerLength := defaultLength,
      state := { w.state with timer := { w.state.timer with remainingSeconds := .finite (25 * 60) } } }
  else
    let wasRunning := w.state.timer.isRunning
    let w1 := pauseTimer w
    let w2 :=
      { w1 with
        state := { w1.state with
          timer := { w1.state.timer with
            remainingSeconds := (parseInt w.timerLength).mul (.finite 60) } } }
    if wasRunning then startTimer w2 now else w2

/-- Function `renderMoodLog()`, line 297: the five newest entries of a sorted copy of `state.moods`. -/
def renderMoodLog (w : World) : World :=
  let latest := (arraySort (fun a b : MoodEntry => b.timestamp - a.timestamp) w.state.moods).take 5
  if latest.length = 0 then { w with moodLog := [LogItem.emptyState] }
  else { w with moodLog := latest.map LogItem.moodEntry }

/-- Function `submitMood(event)`, line 274.  `selectValue` and `notesValue` are the values of
`#mood-select` and `#mood-notes`, `now` the `Date.now()` of line 286.  The first two cases are
the early return of line 278, taken when `Number.isFinite(score)` is false. -/
def submitMood (w : World) (selectValue notesValue : JSString) (now nowStats : Int) : World :=
  match parseInt selectValue with
  | .nan => w
  | .infinity _ => w
  | .finite score =>
    let entry : MoodEntry :=
      { score := score, note := (sanitizeText notesValue).take 160, timestamp := now }
    let w1 := { w with state := { w.state with moods := w.state.moods ++ [entry] } }
    let w2 := persist w1 StorageKey.moods (Stored.moods w1.state.moods)
    updateStats (renderMoodLog w2) nowStats

/-- Function `purgeData()`, line 340; `confirmed` is the answer of `window.confirm`. -/
def purgeData (w : World) (confirmed : Bool) (nowStats : Int) : World :=
  if !confirmed then w
  else
    let w1 := { w with state := { w.state with tasks := [], focusSessions := 0, moods := [] } }
    let w2 := persist w1 StorageKey.tasks (Stored.tasks w1.state.tasks)
    let w3 := persist w2 StorageKey.focus (Stored.focus w2.state.focusSessions)
    let w4 := persist w3 StorageKey.moods (Stored.moods w3.state.moods)
    updateStats (renderMoodLog (renderTasks w4)) nowStats

/-! ## Timer runs -/

/-- What can happen to the timer: the four handlers of lines 360-363, a firing of a registered
interval, and the user typing into the session-length field. -/
inductive TimerEvent where
  | start (now : Int)
  | pause
  | reset
  | lengthChange (now : Int)
  | fire (handle : Nat) (now nowStats : Int)
  | typeLength (value : JSString)
  deriving DecidableEq, Repr

/-- The effect of one timer event. -/
def timerStep (w : World) : TimerEvent → World
  | .start now => startTimer w now
  | .pause => pauseTimer w
  | .reset => resetTimer w
  | .lengthChange now => handleTimerLengthChange w now
  | .fire handle now nowStats => tick w handle now nowStats
  | .typeLength value => { w with timerLength := value }

/-- The effect of a sequence of timer events, oldest first. -/
def runTimer (w : World) (events : List TimerEvent) : World :=
  events.foldl timerStep w

/-- The page right after the script is loaded: the `state` literal, no interval registered. -/
def initialWorld (storage : LocalStorage) (alert : Option Bool) (length : JSString) : World :=
  { state := initialState, localStorage := storage, intervals := [], taskList := [],
    moodLog := [], staleAlert := alert, timerLength := length }

/-- The order in which line 80 leaves two tasks: `a` may stand before `b`. -/
def renderOrder (a b : Task) : Prop :=
  compareTasks a b ≤ 0

instance : DecidableRel renderOrder := fun _ _ => Int.decLe _ _

/-- Successive firings of the interval `handle`, each given by the clock readings of its
callback and of the `updateStats` it may reach, oldest first. -/
def fireAll (w : World) (handle : Nat) (readings : List (Int × Int)) : World :=
  readings.foldl (fun acc p => tick acc handle p.1 p.2) w

/-- At most one interval is registered: exactly one, held in `state.timer.interval`, while the
timer runs, and none, with `state.timer.interval` null, while it does not. -/
def SingleInterval (w : World) : Prop :=
  (w.state.timer.isRunning = true ∧
      ∃ handle endTime, w.state.timer.interval = some handle ∧ w.intervals = [(handle, endTime)]) ∨
    (w.state.timer.isRunning = false ∧ w.state.timer.interval = none ∧ w.intervals = [])

/-! ## Sample pages -/

/-- A page holding the given tasks, with nothing stored and the timer as in the `state`
literal. -/
def pageWith (tasks : List Task) : World :=
  { state := { initialState with tasks := tasks },
    localStorage := { flowguard_tasks := none, flowguard_focus := none, flowguard_moods := none },
    intervals := [], taskList := [], moodLog := [], staleAlert := some true,
    timerLength := defaultLength }

/-- An open task created at time 100. -/
def sampleOld : Task :=
  { id := [97], title := [65], tag := defaultTag, completed := false, createdAt := 100,
    completedAt := none }

/-- A completed task created at time 300, carrying no `completedAt`. -/
def sampleDone : Task :=
  { id := [98], title := [66], tag := defaultTag, completed := true, createdAt := 300,
    completedAt := none }

/-- An open task created at time 200. -/
def sampleNew : Task :=
  { id := [99], title := [67], tag := defaultTag, completed := false, createdAt := 200,
    completedAt := none }

/-- A page with no task, on which `-5` has been typed into the session-length field. -/
def pageTyped : World :=
  { pageWith [] with timerLength := [45, 53] }

/-- A page with no task, a paused timer with 5 seconds left and `"25"` in the length field. -/
def pageFive : World :=
  { pageWith [] with
    state := { initialState with
      timer := { remainingSeconds := .finite 5, interval := none, isRunning := false } } }

/-! ## Lemmas on the host functions -/

theorem arraySort_perm {α : Type} (cmp : α → α → Int) (xs : List α) :
    (arraySort cmp xs).Perm xs :=
  List.perm_insertionSort _ xs

theorem arraySort_length {α : Type} (cmp : α → α → Int) (xs : List α) :
    (arraySort cmp xs).length = xs.length :=
  (arraySort_perm cmp xs).length_eq

theorem mem_arraySort {α : Type} (cmp : α → α → Int) (xs : List α) (a : α) :
    a ∈ arraySort cmp xs ↔ a ∈ xs :=
  (arraySort_perm cmp xs).mem_iff

theorem renderOrder_iff (a b : Task) :
    renderOrder a b ↔
      (a.completed = false ∧ b.completed = true) ∨
        (a.completed = b.completed ∧ b.createdAt ≤ a.createdAt) := by
  unfold renderOrder compareTasks boolToNumber
  cases ha : a.completed <;> cases hb : b.completed <;> simp

theorem renderOrder_total (a b : Task) : renderOrder a b ∨ renderOrder b a := by
  rw [renderOrder_iff, renderOrder_iff]
  cases ha : a.completed <;> cases hb : b.completed <;> simp <;> omega

theorem renderOrder_trans (a b c : Task) :
    renderOrder a b → renderOrder b c → renderOrder a c := by
  rw [renderOrder_iff, renderOrder_iff, renderOrder_iff]
  cases ha : a.completed <;> cases hb : b.completed <;> cases hc : c.completed <;> simp <;> omega

theorem arraySort_compareTasks_sorted (xs : List Task) :
    (arraySort compareTasks xs).Sorted renderOrder := by
  haveI : IsTotal Task renderOrder := ⟨renderOrder_total⟩
  haveI : IsTrans Task renderOrder := ⟨renderOrder_trans⟩
  exact List.sorted_insertionSort renderOrder xs

theorem arraySort_compareTasks_of_sorted {xs : List Task} (h : xs.Sorted renderOrder) :
    arraySort compareTasks xs = xs :=
  List.Sorted.insertionSort_eq h

theorem arraySort_compareTasks_idem (xs : List Task) :
    arraySort compareTasks (arraySort compareTasks xs) = arraySort compareTasks xs :=
  arraySort_compareTasks_of_sorted (arraySort_compareTasks_sorted xs)

/-- The task array after `renderTasks`, whether or not it was empty. -/
theorem renderTasks_tasks (w : World) :
    (renderTasks w).state.tasks = arraySort compareTasks w.state.tasks := by
  unfold renderTasks
  split
  · next h =>
    have : w.state.tasks = [] := List.length_eq_zero.mp h
    simp [this, arraySort]
  · rfl

theorem updateStaleIndicator_state (w : World) (now : Int) :
    (updateStaleIndicator w now).state = w.state := by
  unfold updateStaleIndicator
  split
  · rfl
  · split <;> rfl

theorem updateStaleIndicator_localStorage (w : World) (now : Int) :
    (updateStaleIndicator w now).localStorage = w.localStorage := by
  unfold updateStaleIndicator
  split
  · rfl
  · split <;> rfl

theorem updateStaleIndicator_intervals (w : World) (now : Int) :
    (updateStaleIndicator w now).intervals = w.intervals := by
  unfold updateStaleIndicator
  split
  · rfl
  · split <;> rfl

theorem updateStats_tasks (w : World) (now : Int) :
    (updateStats w now).state.tasks = w.state.tasks := by
  unfold updateStats
  rw [updateStaleIndicator_state]

theorem persist_state (w : World) (key : StorageKey) (data : Stored) :
    (persist w key data).state = w.state := by
  cases key <;> rfl

theorem persist_intervals (w : World) (key : StorageKey) (data : Stored) :
    (persist w key data).intervals = w.intervals := by
  cases key <;> rfl

/-- The task array after `addTask` with a title that survives sanitising. -/
theorem addTask_tasks (w : World) (titleValue tagValue id : JSString) (now nowStats : Int)
    (h : sanitizeText titleValue ≠ []) :
    (addTask w titleValue tagValue id now nowStats).state.tasks =
      arraySort compareTasks (w.state.tasks ++
        [{ id := id, title := sanitizeText titleValue,
           tag := if sanitizeText tagValue = [] then defaultTag else sanitizeText tagValue,
           completed := false, createdAt := now, completedAt := none }]) := by
  unfold addTask
  simp only [h, if_false]
  rw [updateStats_tasks, renderTasks_tasks, persist_state]

/-- The task array after `deleteTask`. -/
theorem deleteTask_tasks (w : World) (id : JSString) (nowStats : Int) :
    (deleteTask w id nowStats).state.tasks =
      arraySort compareTasks (w.state.tasks.filter (fun entry => entry.id ≠ id)) := by
  unfold deleteTask
  rw [updateStats_tasks, renderTasks_tasks, persist_state]

theorem toggleFirst_ids (id : JSString) (now : Int) (l : List Task) :
    (toggleFirst id now l).map (fun entry => entry.id) = l.map (fun entry => entry.id) := by
  induction l with
  | nil => rfl
  | cons x xs ih =>
    unfold toggleFirst
    split
    · simp [toggled]
    · simp [ih]

theorem toggleFirst_mem {l : List Task} (hnodup : (l.map (fun entry => entry.id)).Nodup)
    {t : Task} (ht : t ∈ l) (now : Int) : toggled t now ∈ toggleFirst t.id now l := by
  induction l with
  | nil => simp at ht
  | cons x xs ih =>
    rw [List.map_cons, List.nodup_cons] at hnodup
    unfold toggleFirst
    rcases List.mem_cons.mp ht with rfl | hxs
    · simp
    · have hne : x.id ≠ t.id := by
        intro heq
        exact hnodup.1 (heq ▸ List.mem_map_of_mem (fun entry => entry.id) hxs)
      simp only [hne, if_false]
      exact List.mem_cons_of_mem _ (ih hnodup.2 hxs)

/-- The task array after `toggleTask` on the id of a task of the collection. -/
theorem toggleTask_tasks (w : World) {t : Task} (ht : t ∈ w.state.tasks) (now nowStats : Int) :
    (toggleTask w t.id now nowStats).state.tasks =
      arraySort compareTasks (toggleFirst t.id now w.state.tasks) := by
  unfold toggleTask
  split
  · next hnone =>
    have := List.find?_eq_none.mp hnone t ht
    simp at this
  · rw [updateStats_tasks, renderTasks_tasks, persist_state]

/-- One `toggleTask` on a collection with unique ids: the ids stay unique and the toggled copy
of the task is in the collection. -/
theorem toggleTask_step (w : World) (hnodup : (w.state.tasks.map (fun entry => entry.id)).Nodup)
    {t : Task} (ht : t ∈ w.state.tasks) (now nowStats : Int) :
    ((toggleTask w t.id now nowStats).state.tasks.map (fun entry => entry.id)).Nodup ∧
      toggled t now ∈ (toggleTask w t.id now nowStats).state.tasks := by
  rw [toggleTask_tasks w ht]
  constructor
  · have hp := (arraySort_perm compareTasks (toggleFirst t.id now w.state.tasks)).map
      (fun entry => entry.id)
    rw [toggleFirst_ids] at hp
    exact hp.nodup_iff.mpr hnodup
  · exact (mem_arraySort _ _ _).mpr (toggleFirst_mem hnodup ht now)

theorem eq_of_mem_of_id_eq {l : List Task} (hnodup : (l.map (fun entry => entry.id)).Nodup)
    {a b : Task} (ha : a ∈ l) (hb : b ∈ l) (h : a.id = b.id) : a = b := by
  induction l with
  | nil => simp at ha
  | cons x xs ih =>
    rw [List.map_cons, List.nodup_cons] at hnodup
    rcases List.mem_cons.mp ha with rfl | ha'
    · rcases List.mem_cons.mp hb with rfl | hb'
      · rfl
      · exact absurd (h ▸ List.mem_map_of_mem (fun entry => entry.id) hb') hnodup.1
    · rcases List.mem_cons.mp hb with rfl | hb'
      · exact absurd (h ▸ List.mem_map_of_mem (fun entry => entry.id) ha') hnodup.1
      · exact ih hnodup.2 ha' hb'

/-! ## The task list -/

/-- C1. `addTask` with a title that sanitises to the empty string (such as `""` or three
spaces) changes nothing; with any other title the collection grows by exactly one task, the
new one, whose `completed` is `false`. -/
theorem addTask_spec (w : World) (titleValue tagValue id : JSString) (now nowStats : Int) :
    (sanitizeText titleValue = [] → addTask w titleValue tagValue id now nowStats = w) ∧
    (sanitizeText titleValue ≠ [] →
      (addTask w titleValue tagValue id now nowStats).state.tasks.length =
        w.state.tasks.length + 1 ∧
      ∃ task : Task, task.id = id ∧ task.title = sanitizeText titleValue ∧
        task.createdAt = now ∧ task.completed = false ∧
        (addTask w titleValue tagValue id now nowStats).state.tasks.Perm
          (w.state.tasks ++ [task])) ∧
    addTask w [] tagValue id now nowStats = w ∧
    addTask w [32, 32, 32] tagValue id now nowStats = w := by
  refine ⟨?_, ?_, ?_, ?_⟩
  · intro h
    simp [addTask, h]
  · intro h
    rw [addTask_tasks w titleValue tagValue id now nowStats h]
    refine ⟨?_, _, rfl, rfl, rfl, rfl, arraySort_perm _ _⟩
    rw [arraySort_length]
    simp
  · have h : sanitizeText [] = [] := by decide
    simp [addTask, h]
  · have h : sanitizeText [32, 32, 32] = [] := by decide
    simp [addTask, h]

theorem addTask_spec_witness :
    addTask (pageWith [sampleOld]) [9, 32] [] [120] 500 501 = pageWith [sampleOld] ∧
    (addTask (pageWith [sampleOld]) [32, 72, 105] [] [120] 500 501).state.tasks.length = 2 :=
  ⟨(addTask_spec (pageWith [sampleOld]) [9, 32] [] [120] 500 501).1 (by decide),
    ((addTask_spec (pageWith [sampleOld]) [32, 72, 105] [] [120] 500 501).2.1 (by decide)).1⟩

/-- C2. On a collection with unique ids, two `toggleTask` calls in a row on the id of one of
its tasks (each with its re-render and in-place sort) keep the ids unique and leave the task
with that id with its original `completed` flag and with `completedAt` set. -/
theorem toggleTask_twice (w : World) (t : Task) (now₁ stats₁ now₂ stats₂ : Int)
    (hnodup : (w.state.tasks.map (fun entry => entry.id)).Nodup) (ht : t ∈ w.state.tasks) :
    ((toggleTask (toggleTask w t.id now₁ stats₁) t.id now₂ stats₂).state.tasks.map
        (fun entry => entry.id)).Nodup ∧
    (∃ t₂ ∈ (toggleTask (toggleTask w t.id now₁ stats₁) t.id now₂ stats₂).state.tasks,
        t₂.id = t.id) ∧
    ∀ t₂ ∈ (toggleTask (toggleTask w t.id now₁ stats₁) t.id now₂ stats₂).state.tasks,
      t₂.id = t.id → t₂.completed = t.completed ∧ t₂.completedAt.isSome = true := by
  have h1 := toggleTask_step w hnodup ht now₁ stats₁
  have h2 := toggleTask_step (toggleTask w t.id now₁ stats₁) h1.1 h1.2 now₂ stats₂
  have hid : (toggled t now₁).id = t.id := rfl
  rw [hid] at h2
  refine ⟨h2.1, ⟨_, h2.2, rfl⟩, ?_⟩
  intro t₂ ht₂ hid₂
  have heq : t₂ = toggled (toggled t now₁) now₂ := eq_of_mem_of_id_eq h2.1 ht₂ h2.2 hid₂
  subst heq
  cases hc : t.completed <;> simp [toggled, hc]

theorem toggleTask_twice_witness :
    ((pageWith [sampleOld, sampleDone]).state.tasks.map (fun entry => entry.id)).Nodup ∧
    sampleDone ∈ (pageWith [sampleOld, sampleDone]).state.tasks ∧
    ∀ t₂ ∈ (toggleTask (toggleTask (pageWith [sampleOld, sampleDone]) sampleDone.id 400 401)
        sampleDone.id 500 501).state.tasks,
      t₂.id = sampleDone.id → t₂.completed = sampleDone.completed ∧ t₂.completedAt.isSome = true :=
  ⟨by decide, by decide,
    (toggleTask_twice (pageWith [sampleOld, sampleDone]) sampleDone 400 401 500 501
      (by decide) (by decide)).2.2⟩

/-- C4. For a non-empty collection `renderTasks` emits one list item per task, a permutation
of the collection in which no completed task stands before an open one and, among tasks with
the same `completed` flag, `createdAt` never increases. -/
theorem renderTasks_order (w : World) (h : w.state.tasks ≠ []) :
    ∃ emitted : List Task,
      (renderTasks w).taskList = emitted.map ListItem.taskItem ∧
      emitted.Perm w.state.tasks ∧
      emitted.Pairwise (fun a b =>
        (a.completed = true → b.completed = true) ∧
          (a.completed = b.completed → b.createdAt ≤ a.createdAt)) := by
  refine ⟨arraySort compareTasks w.state.tasks, ?_, arraySort_perm _ _, ?_⟩
  · unfold renderTasks
    have : w.state.tasks.length ≠ 0 := fun h0 => h (List.length_eq_zero.mp h0)
    simp [this]
  · refine (arraySort_compareTasks_sorted w.state.tasks).imp ?_
    intro a b hab
    rw [renderOrder_iff] at hab
    rcases hab with ⟨ha, hb⟩ | ⟨hc, hle⟩
    · simp [ha, hb]
    · exact ⟨fun ha => hc ▸ ha, fun _ => hle⟩

theorem renderTasks_order_witness :
    (renderTasks (pageWith [sampleOld, sampleDone, sampleNew])).taskList =
        [ListItem.taskItem sampleNew, ListItem.taskItem sampleOld, ListItem.taskItem sampleDone] ∧
    ∃ emitted : List Task,
      (renderTasks (pageWith [sampleOld, sampleDone, sampleNew])).taskList =
        emitted.map ListItem.taskItem ∧
      emitted.Perm [sampleOld, sampleDone, sampleNew] ∧
      emitted.Pairwise (fun a b =>
        (a.completed = true → b.completed = true) ∧
          (a.completed = b.completed → b.createdAt ≤ a.createdAt)) :=
  ⟨by decide, renderTasks_order (pageWith [sampleOld, sampleDone, sampleNew]) (by decide)⟩

theorem filter_ne_of_not_mem {l : List Task} {id : JSString}
    (h : id ∉ l.map (fun entry => entry.id)) : l.filter (fun entry => entry.id ≠ id) = l := by
  apply List.filter_eq_self.mpr
  intro entry hentry
  have : entry.id ≠ id := fun heq => h (heq ▸ List.mem_map_of_mem _ hentry)
  simpa using this

theorem filter_ne_length {l : List Task} (hnodup : (l.map (fun entry => entry.id)).Nodup)
    {id : JSString} (hmem : id ∈ l.map (fun entry => entry.id)) :
    (l.filter (fun entry => entry.id ≠ id)).length + 1 = l.length := by
  induction l with
  | nil => simp at hmem
  | cons x xs ih =>
    rw [List.map_cons, List.nodup_cons] at hnodup
    by_cases hx : x.id = id
    · have hnot : id ∉ xs.map (fun entry => entry.id) := hx ▸ hnodup.1
      rw [List.filter_cons, if_neg (by simpa using hx), filter_ne_of_not_mem hnot,
        List.length_cons]
    · have hmem' : id ∈ xs.map (fun entry => entry.id) := by
        rcases List.mem_cons.mp hmem with h | h
        · exact absurd h.symm hx
        · exact h
      rw [List.filter_cons, if_pos (by simpa using hx), List.length_cons, List.length_cons,
        ih hnodup.2 hmem']

/-- Calling `deleteTask` with an id that no task carries re-sorts the array and removes nothing. -/
theorem deleteTask_missing (w : World) {id : JSString} (nowStats : Int)
    (h : id ∉ w.state.tasks.map (fun entry => entry.id)) :
    (deleteTask w id nowStats).state.tasks = arraySort compareTasks w.state.tasks := by
  rw [deleteTask_tasks, filter_ne_of_not_mem h]

/-- Every render leaves `state.tasks` in render order, so every task handler does: each one
either returns early or ends with `renderTasks`. -/
theorem tasks_in_render_order (w : World) (titleValue tagValue id : JSString)
    (now nowStats : Int) (confirmed : Bool) :
    (renderTasks w).state.tasks.Sorted renderOrder ∧
    (deleteTask w id nowStats).state.tasks.Sorted renderOrder ∧
    (w.state.tasks.Sorted renderOrder →
      (addTask w titleValue tagValue id now nowStats).state.tasks.Sorted renderOrder ∧
      (toggleTask w id now nowStats).state.tasks.Sorted renderOrder ∧
      (purgeData w confirmed nowStats).state.tasks.Sorted renderOrder) := by
  refine ⟨?_, ?_, ?_⟩
  · rw [renderTasks_tasks]
    exact arraySort_compareTasks_sorted _
  · rw [deleteTask_tasks]
    exact arraySort_compareTasks_sorted _
  · intro hw
    refine ⟨?_, ?_, ?_⟩
    · by_cases h : sanitizeText titleValue = []
      · simpa [addTask, h] using hw
      · rw [addTask_tasks w titleValue tagValue id now nowStats h]
        exact arraySort_compareTasks_sorted _
    · unfold toggleTask
      split
      · exact hw
      · rw [updateStats_tasks, renderTasks_tasks]
        exact arraySort_compareTasks_sorted _
    · unfold purgeData
      split
      · exact hw
      · rw [updateStats_tasks]
        simp [renderMoodLog, renderTasks, persist, arraySort]

/-- C3. `deleteTask(id)` leaves no task with that id and keeps every other task, each exactly
once; on a collection with unique ids that holds the id, this removes exactly one entry and the
size drops by 1.  A further `deleteTask` with the same id, or with any id absent from the
collection, leaves the array as it is; and on any page whose array is in render order, as it is
whenever a handler can run, `deleteTask` with an absent id leaves the array as it is. -/
theorem deleteTask_spec (w : World) (id : JSString) (nowStats : Int) :
    ((w.state.tasks.map (fun entry => entry.id)).Nodup →
      id ∈ w.state.tasks.map (fun entry => entry.id) →
      (deleteTask w id nowStats).state.tasks.length + 1 = w.state.tasks.length) ∧
    (∀ t ∈ (deleteTask w id nowStats).state.tasks, t.id ≠ id) ∧
    (∀ t ∈ w.state.tasks, t.id ≠ id → t ∈ (deleteTask w id nowStats).state.tasks) ∧
    (deleteTask w id nowStats).state.tasks.Perm
      (w.state.tasks.filter (fun entry => entry.id ≠ id)) ∧
    (∀ stats₂ : Int,
      (deleteTask (deleteTask w id nowStats) id stats₂).state.tasks =
        (deleteTask w id nowStats).state.tasks) ∧
    (∀ (id₂ : JSString) (stats₂ : Int),
      id₂ ∉ (deleteTask w id nowStats).state.tasks.map (fun entry => entry.id) →
      (deleteTask (deleteTask w id nowStats) id₂ stats₂).state.tasks =
        (deleteTask w id nowStats).state.tasks) ∧
    (w.state.tasks.Sorted renderOrder → id ∉ w.state.tasks.map (fun entry => entry.id) →
      (deleteTask w id nowStats).state.tasks = w.state.tasks) := by
  have hgone : ∀ t ∈ (deleteTask w id nowStats).state.tasks, t.id ≠ id := by
    intro t ht
    rw [deleteTask_tasks, mem_arraySort, List.mem_filter] at ht
    simpa using ht.2
  have hagain : ∀ (id₂ : JSString) (stats₂ : Int),
      id₂ ∉ (deleteTask w id nowStats).state.tasks.map (fun entry => entry.id) →
      (deleteTask (deleteTask w id nowStats) id₂ stats₂).state.tasks =
        (deleteTask w id nowStats).state.tasks := by
    intro id₂ stats₂ h
    rw [deleteTask_missing _ stats₂ h, deleteTask_tasks, arraySort_compareTasks_idem]
  refine ⟨?_, hgone, ?_, ?_, ?_, hagain, ?_⟩
  · intro hnodup hmem
    rw [deleteTask_tasks, arraySort_length]
    exact filter_ne_length hnodup hmem
  · intro t ht hne
    rw [deleteTask_tasks, mem_arraySort, List.mem_filter]
    exact ⟨ht, by simpa using hne⟩
  · rw [deleteTask_tasks]
    exact arraySort_perm _ _
  · intro stats₂
    apply hagain
    intro hin
    obtain ⟨t, ht, hid⟩ := List.mem_map.mp hin
    exact hgone t ht hid
  · intro hsorted h
    rw [deleteTask_missing w nowStats h]
    exact arraySort_compareTasks_of_sorted hsorted

theorem deleteTask_spec_witness :
    ((pageWith [sampleNew, sampleOld, sampleDone]).state.tasks.map (fun entry => entry.id)).Nodup ∧
    sampleOld.id ∈
      (pageWith [sampleNew, sampleOld, sampleDone]).state.tasks.map (fun entry => entry.id) ∧
    (deleteTask (pageWith [sampleNew, sampleOld, sampleDone]) sampleOld.id 0).state.tasks.length
        + 1 = 3 ∧
    (pageWith [sampleNew, sampleOld, sampleDone]).state.tasks.Sorted renderOrder ∧
    [122] ∉ (pageWith [sampleNew, sampleOld, sampleDone]).state.tasks.map (fun entry => entry.id) ∧
    (deleteTask (pageWith [sampleNew, sampleOld, sampleDone]) [122] 0).state.tasks =
      [sampleNew, sampleOld, sampleDone] :=
  ⟨by decide, by decide,
    (deleteTask_spec (pageWith [sampleNew, sampleOld, sampleDone]) sampleOld.id 0).1
      (by decide) (by decide),
    by decide, by decide,
    (deleteTask_spec (pageWith [sampleNew, sampleOld, sampleDone]) [122] 0).2.2.2.2.2.2
      (by decide) (by decide)⟩

/-! ## Purge -/

/-- C6. `purgeData` with the confirmation accepted empties the tasks and the moods, zeroes the
focus counter and stores these three values under the three keys (the timer is not touched);
with the confirmation declined the whole page, in memory and in storage, is left as it was. -/
theorem purgeData_spec (w : World) (nowStats : Int) :
    (purgeData w true nowStats).state.tasks = [] ∧
    (purgeData w true nowStats).state.focusSessions = 0 ∧
    (purgeData w true nowStats).state.moods = [] ∧
    (purgeData w true nowStats).state.timer = w.state.timer ∧
    (purgeData w true nowStats).localStorage =
      { flowguard_tasks := some (Stored.tasks []), flowguard_focus := some (Stored.focus 0),
        flowguard_moods := some (Stored.moods []) } ∧
    purgeData w false nowStats = w := by
  have hstate : (purgeData w true nowStats).state =
      { w.state with tasks := [], focusSessions := 0, moods := [] } := by
    simp [purgeData, updateStats, updateStaleIndicator_state, renderMoodLog, renderTasks, persist,
      arraySort]
  have hstore : (purgeData w true nowStats).localStorage =
      { flowguard_tasks := some (Stored.tasks []), flowguard_focus := some (Stored.focus 0),
        flowguard_moods := some (Stored.moods []) } := by
    simp [purgeData, updateStats, updateStaleIndicator_localStorage, renderMoodLog, renderTasks,
      persist, arraySort]
  refine ⟨?_, ?_, ?_, ?_, hstore, ?_⟩
  · rw [hstate]
  · rw [hstate]
  · rw [hstate]
  · rw [hstate]
  · simp [purgeData]

/-! ## The stale-data indicator -/

theorem le_foldl_max (x : Int) (xs : List Int) :
    x ≤ xs.foldl max x ∧ ∀ y ∈ xs, y ≤ xs.foldl max x := by
  induction xs generalizing x with
  | nil => simp
  | cons z zs ih =>
    rw [List.foldl_cons]
    refine ⟨le_trans (le_max_left x z) (ih (max x z)).1, ?_⟩
    intro y hy
    rcases List.mem_cons.mp hy with rfl | hy'
    · exact le_trans (le_max_right x y) (ih (max x y)).1
    · exact (ih (max x z)).2 y hy'

theorem foldl_max_mem (x : Int) (xs : List Int) : xs.foldl max x ∈ x :: xs := by
  induction xs generalizing x with
  | nil => simp
  | cons z zs ih =>
    rw [List.foldl_cons]
    rcases List.mem_cons.mp (ih (max x z)) with h | h
    · rcases max_choice x z with hx | hz
      · rw [h, hx]
        exact List.mem_cons_self _ _
      · rw [h, hz]
        exact List.mem_cons_of_mem _ (List.mem_cons_self _ _)
    · exact List.mem_cons_of_mem _ (List.mem_cons_of_mem _ h)

/-- When some entry exists, `lastEntry` is the largest timestamp. -/
theorem lastEntry_spec (w : World) (h : timestamps w ≠ []) :
    lastEntry w ∈ timestamps w ∧ ∀ ts ∈ timestamps w, ts ≤ lastEntry w := by
  unfold lastEntry mathMax
  cases hts : timestamps w with
  | nil => exact absurd hts h
  | cons x xs =>
    refine ⟨foldl_max_mem x xs, ?_⟩
    intro ts hmem
    rcases List.mem_cons.mp hmem with rfl | hmem'
    · exact (le_foldl_max ts xs).1
    · exact (le_foldl_max x xs).2 ts hmem'

/-- Line 157 in milliseconds: fewer than three days have passed. -/
theorem daysSinceUpdate_lt_three (w : World) (now : Int) :
    daysSinceUpdate w now < 3 ↔ now - lastEntry w < 3 * 86400000 := by
  unfold daysSinceUpdate
  rw [div_lt_iff₀ (by norm_num)]
  have hc : (3 : ℚ) * (1000 * 60 * 60 * 24) = ((3 * 86400000 : Int) : ℚ) := by norm_num
  rw [hc, Int.cast_lt]

/-- The flag written by `updateStaleIndicator` when the alert element exists. -/
theorem updateStaleIndicator_hidden (w : World) (now : Int) (old : Bool)
    (halert : w.staleAlert = some old) :
    (updateStaleIndicator w now).staleAlert =
      some (decide (lastEntry w = 0 ∨ now - lastEntry w < 3 * 86400000)) := by
  unfold updateStaleIndicator
  rw [halert]
  by_cases h0 : lastEntry w = 0
  · simp [h0]
  · simp only [h0, if_false, false_or]
    congr 1
    exact decide_eq_decide.mpr (daysSinceUpdate_lt_three w now)

/-- C7 as stated fails on the boundary: with one task created at time 100 and the clock at
exactly three days later, the age does not exceed three days, and the warning is shown. -/
theorem stale_shown_at_exactly_three_days :
    timestamps (pageWith [sampleOld]) = [100] ∧
    ¬ (3 * 86400000 < (100 + 3 * 86400000 : Int) - 100) ∧
    (updateStaleIndicator (pageWith [sampleOld]) (100 + 3 * 86400000)).staleAlert =
      some false := by
  refine ⟨by decide, by decide, ?_⟩
  rw [updateStaleIndicator_hidden _ _ true rfl]
  decide

/-- C7, amended.  With the alert element present and all timestamps positive, the warning is
shown (`hidden = false`) exactly when some entry exists and the newest one is at least three
days (3 * 86,400,000 ms) old, and it is hidden (`hidden = true`) in every other case. -/
theorem updateStaleIndicator_spec (w : World) (now : Int) (old : Bool)
    (halert : w.staleAlert = some old) (hpos : ∀ ts ∈ timestamps w, 0 < ts) :
    ((updateStaleIndicator w now).staleAlert = some false ↔
      ∃ last ∈ timestamps w, (∀ ts ∈ timestamps w, ts ≤ last) ∧ 3 * 86400000 ≤ now - last) ∧
    ((updateStaleIndicator w now).staleAlert = some true ↔
      ¬ ∃ last ∈ timestamps w, (∀ ts ∈ timestamps w, ts ≤ last) ∧ 3 * 86400000 ≤ now - last) := by
  rw [updateStaleIndicator_hidden w now old halert]
  have key : (lastEntry w = 0 ∨ now - lastEntry w < 3 * 86400000) ↔
      ¬ ∃ last ∈ timestamps w, (∀ ts ∈ timestamps w, ts ≤ last) ∧
        3 * 86400000 ≤ now - last := by
    by_cases hts : timestamps w = []
    · have h0 : lastEntry w = 0 := by
        unfold lastEntry
        rw [hts]
      simp [hts, h0]
    · obtain ⟨hmem, hmax⟩ := lastEntry_spec w hts
      have hne : lastEntry w ≠ 0 := ne_of_gt (hpos _ hmem)
      constructor
      · rintro (h | h)
        · exact absurd h hne
        · rintro ⟨last, hlast, hub, hage⟩
          have : last = lastEntry w := le_antisymm (hmax last hlast) (hub _ hmem)
          omega
      · intro h
        right
        by_contra hlt
        exact h ⟨lastEntry w, hmem, hmax, by omega⟩
  constructor
  · rw [Option.some_inj, decide_eq_false_iff_not, key, not_not]
  · rw [Option.some_inj, decide_eq_true_iff, key]

theorem updateStaleIndicator_spec_witness :
    ((updateStaleIndicator (pageWith [sampleOld, sampleNew]) 1000).staleAlert = some true ↔
      ¬ ∃ last ∈ timestamps (pageWith [sampleOld, sampleNew]),
        (∀ ts ∈ timestamps (pageWith [sampleOld, sampleNew]), ts ≤ last) ∧
          3 * 86400000 ≤ 1000 - last) :=
  (updateStaleIndicator_spec (pageWith [sampleOld, sampleNew]) 1000 true rfl (by decide)).2

/-! ## The mood log -/

theorem renderMoodLog_state (w : World) : (renderMoodLog w).state = w.state := by
  unfold renderMoodLog
  simp only
  split <;> rfl

/-- The mood array after `submitMood` with a selector value that parses to a finite number. -/
theorem submitMood_moods (w : World) (selectValue notesValue : JSString) (now nowStats : Int)
    {score : Int} (h : parseInt selectValue = .finite score) :
    (submitMood w selectValue notesValue now nowStats).state.moods =
      w.state.moods ++
        [{ score := score, note := (sanitizeText notesValue).take 160, timestamp := now }] := by
  unfold submitMood
  rw [h]
  simp only [updateStats]
  rw [updateStaleIndicator_state, renderMoodLog_state, persist_state]

/-- C8 as stated fails: on a page with no mood entry, the selector value `"7"` parses to 7
and an entry with score 7 is added. -/
theorem submitMood_score_out_of_range :
    (∀ e ∈ (pageWith []).state.moods, 1 ≤ e.score ∧ e.score ≤ 5) ∧
    (submitMood (pageWith []) [55] [] 1000 1001).state.moods =
      [{ score := 7, note := [], timestamp := 1000 }] ∧
    ¬ (∀ e ∈ (submitMood (pageWith []) [55] [] 1000 1001).state.moods,
        1 ≤ e.score ∧ e.score ≤ 5) := by
  have h7 : parseInt [55] = .finite 7 := by decide
  rw [submitMood_moods (pageWith []) [55] [] 1000 1001 h7]
  refine ⟨by decide, by decide, ?_⟩
  intro h
  have h5 : (7 : Int) ≤ 5 := (h { score := 7, note := [], timestamp := 1000 } (by decide)).2
  omega

/-- C8, amended.  From a state whose mood scores all lie in 1..5: a selector value that
`parseInt` turns into `NaN`, `Infinity` or `-Infinity` leaves the page as it is; a selector
value that parses to a finite number adds exactly one entry with that number, an integer, as
its score, whatever its size, so all scores lie in 1..5 afterwards exactly when the parsed
number does. -/
theorem submitMood_scores (w : World) (selectValue notesValue : JSString) (now nowStats : Int)
    (hinv : ∀ e ∈ w.state.moods, 1 ≤ e.score ∧ e.score ≤ 5) :
    ((parseInt selectValue).isFinite = false →
      submitMood w selectValue notesValue now nowStats = w) ∧
    (∀ score : Int, parseInt selectValue = .finite score →
      (submitMood w selectValue notesValue now nowStats).state.moods =
        w.state.moods ++
          [{ score := score, note := (sanitizeText notesValue).take 160, timestamp := now }] ∧
      ((∀ e ∈ (submitMood w selectValue notesValue now nowStats).state.moods,
          1 ≤ e.score ∧ e.score ≤ 5) ↔ 1 ≤ score ∧ score ≤ 5)) := by
  constructor
  · intro h
    unfold submitMood
    cases hp : parseInt selectValue with
    | nan => rfl
    | infinity negative => rfl
    | finite score =>
      rw [hp] at h
      exact absurd h (by simp [JSNumber.isFinite])
  · intro score h
    rw [submitMood_moods w selectValue notesValue now nowStats h]
    refine ⟨rfl, ?_, ?_⟩
    · intro hall
      exact hall _ (List.mem_append_right _ (List.mem_singleton_self _))
    · intro hscore e he
      rcases List.mem_append.mp he with he | he
      · exact hinv e he
      · rw [List.mem_singleton.mp he]
        exact hscore

theorem submitMood_scores_witness :
    (∀ e ∈ (pageWith []).state.moods, 1 ≤ e.score ∧ e.score ≤ 5) ∧
    submitMood (pageWith []) [] [72, 105] 1000 1001 = pageWith [] ∧
    (submitMood (pageWith []) [52] [72, 105] 1000 1001).state.moods =
      [{ score := 4, note := [72, 105], timestamp := 1000 }] ∧
    ((∀ e ∈ (submitMood (pageWith []) [52] [72, 105] 1000 1001).state.moods,
        1 ≤ e.score ∧ e.score ≤ 5) ↔ 1 ≤ (4 : Int) ∧ (4 : Int) ≤ 5) :=
  ⟨by decide,
    (submitMood_scores (pageWith []) [] [72, 105] 1000 1001 (by decide)).1 (by decide),
    ((submitMood_scores (pageWith []) [52] [72, 105] 1000 1001 (by decide)).2 4 (by decide)).1,
    ((submitMood_scores (pageWith []) [52] [72, 105] 1000 1001 (by decide)).2 4 (by decide)).2⟩

/-! ## The timer -/

theorem SingleInterval.congr {w w' : World} (h : SingleInterval w)
    (hrun : w'.state.timer.isRunning = w.state.timer.isRunning)
    (hint : w'.state.timer.interval = w.state.timer.interval)
    (hivs : w'.intervals = w.intervals) : SingleInterval w' := by
  unfold SingleInterval at *
  rw [hrun, hint, hivs]
  exact h

theorem startTimer_single {w : World} (h : SingleInterval w) (now : Int) :
    SingleInterval (startTimer w now) := by
  unfold startTimer
  split
  · exact h
  · next hrun =>
    rcases h with ⟨hr, _⟩ | ⟨_, _, hivs⟩
    · exact absurd hr hrun
    · left
      refine ⟨rfl, freshHandle w.intervals,
        (JSNumber.finite now).add (w.state.timer.remainingSeconds.mul (.finite 1000)), rfl, ?_⟩
      simp [hivs]

theorem pauseTimer_single {w : World} (h : SingleInterval w) :
    SingleInterval (pauseTimer w) ∧ (pauseTimer w).state.timer.isRunning = false := by
  unfold pauseTimer
  rcases h with ⟨hr, handle, endTime, hint, hivs⟩ | ⟨hr, hint, hivs⟩
  · refine ⟨Or.inr ?_, ?_⟩
    · simp [hr, hint, hivs, clearInterval]
    · simp [hr]
  · refine ⟨?_, ?_⟩
    · simp only [hr]
      exact Or.inr ⟨hr, hint, hivs⟩
    · simp [hr]

theorem resetTimer_single {w : World} (h : SingleInterval w) :
    SingleInterval (resetTimer w) :=
  (pauseTimer_single h).1.congr rfl rfl rfl

theorem completeTimerCycle_single {w : World} (h : SingleInterval w) (nowStats : Int) :
    SingleInterval (completeTimerCycle w nowStats) := by
  refine (pauseTimer_single h).1.congr ?_ ?_ ?_
  · simp [completeTimerCycle, updateStats, updateStaleIndicator_state, persist_state]
  · simp [completeTimerCycle, updateStats, updateStaleIndicator_state, persist_state]
  · simp [completeTimerCycle, updateStats, updateStaleIndicator_intervals, persist_intervals]

theorem tick_single {w : World} (h : SingleInterval w) (handle : Nat) (now nowStats : Int) :
    SingleInterval (tick w handle now nowStats) := by
  unfold tick
  split
  · exact h
  · unfold timerCallback
    simp only
    split
    · apply completeTimerCycle_single
      exact h.congr rfl rfl rfl
    · exact h.congr rfl rfl rfl

theorem handleTimerLengthChange_single {w : World} (h : SingleInterval w) (now : Int) :
    SingleInterval (handleTimerLengthChange w now) := by
  unfold handleTimerLengthChange
  split
  · exact h.congr rfl rfl rfl
  · simp only
    have hp : SingleInterval (pauseTimer w) := (pauseTimer_single h).1
    split
    · apply startTimer_single
      exact hp.congr rfl rfl rfl
    · exact hp.congr rfl rfl rfl

theorem timerStep_single {w : World} (h : SingleInterval w) (event : TimerEvent) :
    SingleInterval (timerStep w event) := by
  cases event with
  | start now => exact startTimer_single h now
  | pause => exact (pauseTimer_single h).1
  | reset => exact resetTimer_single h
  | lengthChange now => exact handleTimerLengthChange_single h now
  | fire handle now nowStats => exact tick_single h handle now nowStats
  | typeLength value => exact h.congr rfl rfl rfl

theorem runTimer_single (events : List TimerEvent) {w : World} (h : SingleInterval w) :
    SingleInterval (runTimer w events) := by
  unfold runTimer
  induction events generalizing w with
  | nil => exact h
  | cons event rest ih => exact ih (timerStep_single h event)

/-- C9. `startTimer` on a running timer changes nothing, and after any sequence of timer
events from the freshly loaded page the number of registered intervals is at most 1: it is 1
exactly when `isRunning` is true, and then `state.timer.interval` holds that interval, and it
is 0 exactly when `isRunning` is false, and then `state.timer.interval` is null. -/
theorem timer_single_interval :
    (∀ (w : World) (now : Int), w.state.timer.isRunning = true → startTimer w now = w) ∧
    ∀ (storage : LocalStorage) (alert : Option Bool) (length : JSString)
      (events : List TimerEvent),
      (runTimer (initialWorld storage alert length) events).intervals.length ≤ 1 ∧
      ((runTimer (initialWorld storage alert length) events).intervals.length = 1 ↔
        (runTimer (initialWorld storage alert length) events).state.timer.isRunning = true) ∧
      ((runTimer (initialWorld storage alert length) events).intervals.length = 0 ↔
        (runTimer (initialWorld storage alert length) events).state.timer.isRunning = false) ∧
      ((runTimer (initialWorld storage alert length) events).state.timer.isRunning = true →
        ∃ handle endTime,
          (runTimer (initialWorld storage alert length) events).state.timer.interval =
            some handle ∧
          (runTimer (initialWorld storage alert length) events).intervals =
            [(handle, endTime)]) ∧
      ((runTimer (initialWorld storage alert length) events).state.timer.isRunning = false →
        (runTimer (initialWorld storage alert length) events).state.timer.interval = none) := by
  constructor
  · intro w now hrun
    simp [startTimer, hrun]
  · intro storage alert length events
    have h0 : SingleInterval (initialWorld storage alert length) := Or.inr ⟨rfl, rfl, rfl⟩
    rcases runTimer_single events h0 with ⟨hr, handle, endTime, hint, hivs⟩ | ⟨hr, hint, hivs⟩
    · rw [hr, hint, hivs]
      simp
    · rw [hr, hint, hivs]
      simp

theorem timer_single_interval_witness :
    startTimer (startTimer pageTyped 0) 7 = startTimer pageTyped 0 ∧
    (runTimer (initialWorld (pageWith []).localStorage none defaultLength)
      [TimerEvent.reset, TimerEvent.start 0, TimerEvent.start 5, TimerEvent.lengthChange 9,
        TimerEvent.fire 1 2000000 2000000]).intervals.length ≤ 1 :=
  ⟨timer_single_interval.1 (startTimer pageTyped 0) 7 (by decide),
    (timer_single_interval.2 (pageWith []).localStorage none defaultLength
      [TimerEvent.reset, TimerEvent.start 0, TimerEvent.start 5, TimerEvent.lengthChange 9,
        TimerEvent.fire 1 2000000 2000000]).1⟩

/-- Integers up to `2 ^ 53` are their own nearest double: the shortcut taken by `toDouble`
agrees with the rounding formula. -/
theorem nearestDoubleNat_of_le {a : Nat} (h : a ≤ 2 ^ 53) : nearestDoubleNat a = a := by
  unfold nearestDoubleNat
  rcases Nat.lt_or_ge a (2 ^ 53) with hlt | hge
  · have hlog : Nat.log2 a - 52 = 0 := by
      by_cases h0 : a = 0
      · rw [h0, Nat.log2_zero]
      · have := (Nat.log2_lt h0).mpr hlt
        omega
    simp [hlog, Nat.mod_one]
  · have ha : a = 2 ^ 53 := Nat.le_antisymm h hge
    have hlog : Nat.log2 a - 52 = 1 := by
      rw [ha, Nat.log2_two_pow]
    simp only [hlog]
    subst ha
    norm_num

/-- A quotient `m / S` with `S ≥ 512` that is within `500 / (1000 * S)` of `a / 1000` has the
ceiling and the floor of `a / 1000`. -/
theorem ceil_floor_of_close (a S m : Int) (hS : 512 ≤ S)
    (hlo : a * S ≤ 1000 * m + 500) (hhi : 1000 * m ≤ a * S + 500) :
    ⌈(m : ℚ) / S⌉ = ⌈(a : ℚ) / 1000⌉ ∧ ⌊(m : ℚ) / S⌋ = ⌊(a : ℚ) / 1000⌋ := by
  have hSpos : (0 : ℚ) < (S : ℚ) := by exact_mod_cast (by omega : (0 : Int) < S)
  constructor
  · obtain ⟨k, hk⟩ : ∃ k : Int, ⌈(a : ℚ) / 1000⌉ = k := ⟨_, rfl⟩
    rw [hk]
    have hk' := Int.ceil_eq_iff.mp hk
    have h1 : (k - 1) * 1000 < a := by
      have := hk'.1
      rw [lt_div_iff₀ (by norm_num)] at this
      exact_mod_cast (by linarith : ((k : ℚ) - 1) * 1000 < a)
    have h2 : a ≤ k * 1000 := by
      have := hk'.2
      rw [div_le_iff₀ (by norm_num)] at this
      exact_mod_cast (by linarith : (a : ℚ) ≤ k * 1000)
    have h3 : a * S ≤ 1000 * (k * S) := by nlinarith
    have h4 : (1000 * (k - 1) + 1) * S ≤ a * S := by nlinarith
    have h5 : (k - 1) * S < m := by nlinarith
    have h6 : m ≤ k * S := by omega
    rw [Int.ceil_eq_iff, lt_div_iff₀ hSpos, div_le_iff₀ hSpos]
    constructor
    · exact_mod_cast h5
    · exact_mod_cast h6
  · obtain ⟨f, hf⟩ : ∃ f : Int, ⌊(a : ℚ) / 1000⌋ = f := ⟨_, rfl⟩
    rw [hf]
    have hf' := Int.floor_eq_iff.mp hf
    have h1 : f * 1000 ≤ a := by
      have := hf'.1
      rw [le_div_iff₀ (by norm_num)] at this
      exact_mod_cast (by linarith : (f : ℚ) * 1000 ≤ a)
    have h2 : a < (f + 1) * 1000 := by
      have := hf'.2
      rw [div_lt_iff₀ (by norm_num)] at this
      exact_mod_cast (by linarith : (a : ℚ) < (f + 1) * 1000)
    have h3 : 1000 * (f * S) ≤ a * S := by nlinarith
    have h4 : a * S ≤ (1000 * f + 999) * S := by nlinarith
    have h5 : f * S ≤ m := by omega
    have h6 : m < (f + 1) * S := by nlinarith
    rw [Int.floor_eq_iff, le_div_iff₀ hSpos, div_lt_iff₀ hSpos]
    constructor
    · exact_mod_cast h5
    · exact_mod_cast h6

/-- The ceiling shortcut taken by `ceilDivThousand` agrees with the rounding formula: for
`a ≤ 2 ^ 53`, rounding the quotient `a / 1000` to 53 significant bits changes neither the
ceiling of the quotient nor that of its negative. -/
theorem ceil_nearestDoubleQuot {a : Nat} (h : a ≤ 2 ^ 53) :
    ⌈nearestDoubleQuot a 1000⌉ = ⌈(a : ℚ) / 1000⌉ ∧
    ⌈-(nearestDoubleQuot a 1000)⌉ = ⌈-((a : ℚ) / 1000)⌉ := by
  have hlog : Nat.log2 (a / 1000) ≤ 43 := by
    by_cases h0 : a / 1000 = 0
    · rw [h0, Nat.log2_zero]
      omega
    · have hlt : a / 1000 < 2 ^ 44 := by
        have : a / 1000 ≤ 2 ^ 53 / 1000 := Nat.div_le_div_right h
        omega
      have := (Nat.log2_lt h0).mpr hlt
      omega
  obtain ⟨s, hs⟩ : ∃ s, 52 - Nat.log2 (a / 1000) = s := ⟨_, rfl⟩
  have hs9 : 9 ≤ s := by omega
  obtain ⟨S, hSdef⟩ : ∃ S : Nat, 2 ^ s = S := ⟨_, rfl⟩
  have hS : 512 ≤ S := by
    have : 2 ^ 9 ≤ 2 ^ s := Nat.pow_le_pow_right (by norm_num) hs9
    omega
  have hdiv := Nat.div_add_mod (a * S) 1000
  have hmod : a * S % 1000 < 1000 := Nat.mod_lt _ (by norm_num)
  obtain ⟨q, hq⟩ : ∃ q : Nat, a * S / 1000 = q := ⟨_, rfl⟩
  obtain ⟨r, hr⟩ : ∃ r : Nat, a * S % 1000 = r := ⟨_, rfl⟩
  rw [hq, hr] at hdiv
  rw [hr] at hmod
  have hval : nearestDoubleQuot a 1000 =
      if 2 * r > 1000 ∨ (2 * r = 1000 ∧ q % 2 = 1) then ((q + 1 : Nat) : ℚ) / ((S : Nat) : ℚ)
      else ((q : Nat) : ℚ) / ((S : Nat) : ℚ) := by
    unfold nearestDoubleQuot
    rw [if_neg (by omega)]
    simp only [hs, hSdef, hq, hr]
  have hSz : (512 : Int) ≤ (S : Int) := by exact_mod_cast hS
  have hdivz : (1000 : Int) * q + r = a * S := by exact_mod_cast hdiv
  have hmodz : (r : Int) < 1000 := by exact_mod_cast hmod
  have hr0 : (0 : Int) ≤ r := Int.ofNat_nonneg r
  have key : ∃ m : Int, nearestDoubleQuot a 1000 = (m : ℚ) / ((S : Int) : ℚ) ∧
      (a : Int) * S ≤ 1000 * m + 500 ∧ 1000 * m ≤ (a : Int) * S + 500 := by
    rw [hval]
    split
    · next hup =>
      refine ⟨(q : Int) + 1, by push_cast; rfl, ?_, ?_⟩
      · omega
      · have : 500 ≤ (r : Int) := by omega
        omega
    · next hdown =>
      refine ⟨(q : Int), by push_cast; rfl, ?_, ?_⟩
      · have : (r : Int) ≤ 500 := by omega
        omega
      · omega
  obtain ⟨m, hm, hlo, hhi⟩ := key
  obtain ⟨hceil, hfloor⟩ := ceil_floor_of_close (a : Int) (S : Int) m hSz hlo hhi
  have hcast : ((a : Int) : ℚ) = (a : ℚ) := by push_cast; rfl
  rw [hcast] at hceil hfloor
  rw [hm]
  refine ⟨hceil, ?_⟩
  rw [Int.ceil_neg, Int.ceil_neg, hfloor]

theorem log2_of_bounds {n k : Nat} (hlo : 2 ^ k ≤ n) (hhi : n < 2 ^ (k + 1)) :
    Nat.log2 n = k := by
  have hn : n ≠ 0 := by
    intro h
    rw [h] at hlo
    exact absurd hlo (by simp)
  have h1 : ¬ (Nat.log2 n < k) := by
    rw [Nat.log2_lt hn]
    omega
  have h2 : Nat.log2 n < k + 1 := (Nat.log2_lt hn).mpr hhi
  omega

/-- Above `2 ^ 53` integers are rounded: `2 ^ 53 + 1` becomes `2 ^ 53` (a tie, to even) and
`2 ^ 53 + 3` becomes `2 ^ 53 + 4`. -/
theorem toDouble_rounds :
    toDouble 9007199254740993 = .finite 9007199254740992 ∧
    toDouble 9007199254740995 = .finite 9007199254740996 ∧
    toDouble (-9007199254740995) = .finite (-9007199254740996) := by
  have l1 : Nat.log2 9007199254740993 = 53 := log2_of_bounds (by norm_num) (by norm_num)
  have l2 : Nat.log2 9007199254740995 = 53 := log2_of_bounds (by norm_num) (by norm_num)
  refine ⟨?_, ?_, ?_⟩
  · norm_num [toDouble, nearestDoubleNat, l1]
  · norm_num [toDouble, nearestDoubleNat, l2]
  · norm_num [toDouble, nearestDoubleNat, l2]

theorem nearestDoubleNat_overflow {a : Nat} (k : Nat) (hk : 52 ≤ k) (h : 2 ^ k ≤ a) :
    2 ^ k ≤ nearestDoubleNat a := by
  have ha : a ≠ 0 :=
    Nat.pos_iff_ne_zero.mp (Nat.lt_of_lt_of_le (Nat.pow_pos Nat.zero_lt_two) h)
  have hlog : k ≤ Nat.log2 a := (Nat.le_log2 ha).mpr h
  obtain ⟨e, he⟩ : ∃ e, Nat.log2 a = e := ⟨_, rfl⟩
  have hself : 2 ^ e ≤ a := he ▸ Nat.log2_self_le ha
  have hsplit : 2 ^ e = 2 ^ 52 * 2 ^ (e - 52) := by
    rw [← Nat.pow_add]
    congr 1
    omega
  have hq : 2 ^ 52 ≤ a / 2 ^ (e - 52) := by
    rw [Nat.le_div_iff_mul_le (Nat.pow_pos Nat.zero_lt_two)]
    rw [← hsplit]
    exact hself
  have hbase : 2 ^ k ≤ a / 2 ^ (e - 52) * 2 ^ (e - 52) := by
    calc 2 ^ k ≤ 2 ^ e := Nat.pow_le_pow_right Nat.zero_lt_two (he ▸ hlog)
      _ = 2 ^ 52 * 2 ^ (e - 52) := hsplit
      _ ≤ a / 2 ^ (e - 52) * 2 ^ (e - 52) := Nat.mul_le_mul_right _ hq
  unfold nearestDoubleNat
  simp only [he]
  split
  · exact le_trans hbase (Nat.mul_le_mul_right _ (Nat.le_succ _))
  · exact hbase

/-- An integer result of `2 ^ 1024` or more is `Infinity`, and one of `-(2 ^ 1024)` or less is
`-Infinity`. -/
theorem toDouble_overflow {n : Int} (h : 2 ^ 1024 ≤ n.natAbs) :
    toDouble n = .infinity (decide (n < 0)) := by
  have hbig : ¬ (-(2 ^ 53) ≤ n ∧ n ≤ 2 ^ 53) := by
    have key : ∀ k : Nat, 54 ≤ k → 2 ^ k ≤ n.natAbs → (2 : Nat) ^ 54 ≤ n.natAbs :=
      fun k hk hkn => le_trans (Nat.pow_le_pow_right Nat.zero_lt_two hk) hkn
    have hle : (2 : Nat) ^ 54 ≤ n.natAbs := key 1024 (by decide) h
    clear h key
    omega
  unfold toDouble
  rw [if_neg hbig, if_neg (Nat.not_lt.mpr (nearestDoubleNat_overflow 1024 (by decide) h))]

theorem toDouble_of_safe {n : Int} (h : -(2 ^ 53) ≤ n ∧ n ≤ 2 ^ 53) :
    toDouble n = .finite n := by
  unfold toDouble
  rw [if_pos h]

theorem sub_finite (a b : Int) :
    (JSNumber.finite a).sub (.finite b) = toDouble (a - b) := by
  simp [JSNumber.sub, JSNumber.neg, JSNumber.add, Int.sub_eq_add_neg]

theorem ceilDivThousand_of_safe {d : Int} (h : -(2 ^ 53) ≤ d ∧ d ≤ 2 ^ 53) :
    (JSNumber.finite d).ceilDivThousand = .finite ⌈(d : ℚ) / 1000⌉ := by
  simp only [JSNumber.ceilDivThousand]
  rw [if_pos h]

theorem max_zero_finite (c : Int) :
    JSNumber.max (.finite 0) (.finite c) = .finite (max 0 c) := by
  unfold JSNumber.max
  simp only [JSNumber.lt]
  by_cases hc : 0 < c
  · simp [hc, max_eq_right (le_of_lt hc)]
  · simp [hc, max_eq_left (not_lt.mp hc)]

theorem remainingAt_of_le {endTime now : Int} (h : endTime ≤ now)
    (hsafe : now - endTime ≤ 2 ^ 53) : remainingAt (.finite endTime) now = .finite 0 := by
  have hd : -(2 ^ 53) ≤ endTime - now ∧ endTime - now ≤ 2 ^ 53 := by omega
  unfold remainingAt
  rw [sub_finite, toDouble_of_safe hd, ceilDivThousand_of_safe hd, max_zero_finite]
  congr 1
  apply max_eq_left
  rw [Int.ceil_le]
  have h' : ((endTime - now : Int) : ℚ) ≤ 0 := by exact_mod_cast (sub_nonpos.mpr h)
  simpa using div_nonpos_of_nonpos_of_nonneg h' (by norm_num : (0 : ℚ) ≤ 1000)

theorem remainingAt_of_lt {endTime now : Int} (h : now < endTime)
    (hsafe : endTime - now ≤ 2 ^ 53) :
    remainingAt (.finite endTime) now = .finite ⌈((endTime - now : Int) : ℚ) / 1000⌉ ∧
      0 < ⌈((endTime - now : Int) : ℚ) / 1000⌉ := by
  have hd : -(2 ^ 53) ≤ endTime - now ∧ endTime - now ≤ 2 ^ 53 := by omega
  have hpos : 0 < ⌈((endTime - now : Int) : ℚ) / 1000⌉ := by
    rw [Int.ceil_pos]
    have h' : (0 : ℚ) < ((endTime - now : Int) : ℚ) := by exact_mod_cast (sub_pos.mpr h)
    exact div_pos h' (by norm_num)
  refine ⟨?_, hpos⟩
  unfold remainingAt
  rw [sub_finite, toDouble_of_safe hd, ceilDivThousand_of_safe hd, max_zero_finite,
    max_eq_right (le_of_lt hpos)]

/-- The `endTime` computed by `startTimer` when both `remainingSeconds * 1000` and the sum are
integers a double holds exactly. -/
theorem endTime_of_safe {now r : Int} (hnow : 0 ≤ now) (hr : 0 ≤ r)
    (hend : now + r * 1000 ≤ 2 ^ 53) :
    (JSNumber.finite now).add ((JSNumber.finite r).mul (.finite 1000)) =
      .finite (now + r * 1000) := by
  have h1 : -(2 ^ 53) ≤ r * 1000 ∧ r * 1000 ≤ 2 ^ 53 := by omega
  have h2 : -(2 ^ 53) ≤ now + r * 1000 ∧ now + r * 1000 ≤ 2 ^ 53 := by omega
  simp only [JSNumber.mul, JSNumber.add]
  rw [toDouble_of_safe h1]
  simp only [JSNumber.add]
  rw [toDouble_of_safe h2]

theorem sessionSeconds_of_finite {timerLength : JSString} {minutes : Int}
    (h : parseInt timerLength = .finite minutes) :
    sessionSeconds timerLength = (JSNumber.finite minutes).mul (.finite 60) := by
  unfold sessionSeconds
  rw [h]
  simp [JSNumber.isFinite]

theorem sessionSeconds_of_not_finite {timerLength : JSString}
    (h : (parseInt timerLength).isFinite = false) :
    sessionSeconds timerLength = .finite (25 * 60) := by
  unfold sessionSeconds
  rw [h]
  simp

theorem lt_freshHandle (intervals : List (Nat × JSNumber)) :
    ∀ p ∈ intervals, p.1 < freshHandle intervals := by
  induction intervals with
  | nil => simp
  | cons q qs ih =>
    intro p hp
    have hstep : freshHandle (q :: qs) = max q.1 (freshHandle qs - 1) + 1 := by
      simp [freshHandle]
    rcases List.mem_cons.mp hp with rfl | hp'
    · rw [hstep]
      exact Nat.lt_succ_of_le (le_max_left _ _)
    · have := ih p hp'
      rw [hstep]
      have hle : freshHandle qs - 1 ≤ max q.1 (freshHandle qs - 1) := le_max_right _ _
      omega

theorem lookup_append_new (intervals : List (Nat × JSNumber)) (handle : Nat)
    (endTime : JSNumber) (h : ∀ p ∈ intervals, p.1 ≠ handle) :
    (intervals ++ [(handle, endTime)]).lookup handle = some endTime := by
  induction intervals with
  | nil => simp [List.lookup]
  | cons q qs ih =>
    obtain ⟨k, v⟩ := q
    have hk : k ≠ handle := h (k, v) (List.mem_cons_self _ _)
    have hbeq : (handle == k) = false := by
      simp only [beq_eq_false_iff_ne]
      exact fun heq => hk heq.symm
    rw [List.cons_append, List.lookup_cons, hbeq]
    exact ih (fun p hp => h p (List.mem_cons_of_mem _ hp))

theorem lookup_filter_ne (intervals : List (Nat × JSNumber)) (handle : Nat) :
    (intervals.filter (fun p => p.1 ≠ handle)).lookup handle = none := by
  induction intervals with
  | nil => rfl
  | cons q qs ih =>
    obtain ⟨k, v⟩ := q
    by_cases hk : k = handle
    · rw [List.filter_cons, if_neg (by simpa using hk)]
      exact ih
    · have hbeq : (handle == k) = false := by
        simp only [beq_eq_false_iff_ne]
        exact fun heq => hk heq.symm
      rw [List.filter_cons, if_pos (by simpa using hk), List.lookup_cons, hbeq]
      exact ih

/-- A firing before `endTime` only rewrites `remainingSeconds`. -/
theorem tick_early (w : World) (handle : Nat) (endTime now nowStats : Int)
    (hreg : w.intervals.lookup handle = some (.finite endTime)) (h : now < endTime)
    (hsafe : endTime - now ≤ 2 ^ 53) :
    tick w handle now nowStats =
      { w with state := { w.state with
          timer := { w.state.timer with
            remainingSeconds := .finite ⌈((endTime - now : Int) : ℚ) / 1000⌉ } } } := by
  obtain ⟨heq, hpos⟩ := remainingAt_of_lt h hsafe
  unfold tick
  rw [hreg]
  simp only [timerCallback]
  rw [heq]
  have hle : (JSNumber.finite ⌈((endTime - now : Int) : ℚ) / 1000⌉).le (.finite 0) = false := by
    simp only [JSNumber.le, decide_eq_false_iff_not, not_le]
    exact hpos
  rw [hle]
  simp

/-- A firing at or after `endTime`, while the timer runs on that interval, completes the
cycle. -/
theorem tick_late (w : World) (handle : Nat) (endTime now nowStats : Int)
    (hreg : w.intervals.lookup handle = some (.finite endTime))
    (hrun : w.state.timer.isRunning = true) (hint : w.state.timer.interval = some handle)
    (h : endTime ≤ now) (hsafe : now - endTime ≤ 2 ^ 53) :
    (tick w handle now nowStats).state.timer =
        { remainingSeconds := sessionSeconds w.timerLength, interval := none,
          isRunning := false } ∧
    (tick w handle now nowStats).state.focusSessions = w.state.focusSessions + 1 ∧
    (tick w handle now nowStats).localStorage.flowguard_focus =
        some (Stored.focus (w.state.focusSessions + 1)) ∧
    (tick w handle now nowStats).intervals = w.intervals.filter (fun p => p.1 ≠ handle) := by
  unfold tick
  rw [hreg]
  simp only [timerCallback]
  rw [remainingAt_of_le h hsafe]
  have hle : (JSNumber.finite 0).le (.finite 0) = true := by decide
  rw [hle]
  simp [completeTimerCycle, updateStats, updateStaleIndicator_state,
    updateStaleIndicator_localStorage, updateStaleIndicator_intervals, persist, pauseTimer, hrun,
    hint, clearInterval]

/-- Firings before `endTime` keep the timer running on its interval and leave the focus
counter, the storage and the length field alone. -/
theorem fireAll_early (readings : List (Int × Int)) (w : World) (handle : Nat) (endTime : Int)
    (hreg : w.intervals.lookup handle = some (.finite endTime))
    (hrun : w.state.timer.isRunning = true) (hint : w.state.timer.interval = some handle)
    (hearly : ∀ p ∈ readings, p.1 < endTime ∧ endTime - p.1 ≤ 2 ^ 53) :
    (fireAll w handle readings).intervals = w.intervals ∧
    (fireAll w handle readings).state.timer.isRunning = true ∧
    (fireAll w handle readings).state.timer.interval = some handle ∧
    (fireAll w handle readings).state.focusSessions = w.state.focusSessions ∧
    (fireAll w handle readings).timerLength = w.timerLength := by
  unfold fireAll
  induction readings generalizing w with
  | nil => exact ⟨rfl, hrun, hint, rfl, rfl⟩
  | cons p ps ih =>
    obtain ⟨hlt, hs⟩ := hearly p (List.mem_cons_self _ _)
    rw [List.foldl_cons, tick_early w handle endTime p.1 p.2 hreg hlt hs]
    exact ih _ hreg hrun hint (fun q hq => hearly q (List.mem_cons_of_mem _ hq))

/-- C5. Take a timer that is not running with `r > 0` seconds left, started at clock reading
`t₀`, all clock readings lying between 0 and `2 ^ 53` (where the script's arithmetic on them is
exact), and let its interval fire any number of times before `t₀ + r * 1000`.  A firing at a
time `t ≥ t₀ + r * 1000` then computes `remaining = 0` and completes the cycle: the timer is
not running, its interval is cleared, the focus counter is one higher, and `remainingSeconds`
is the session length read from the field, `minutes * 60` when the field parses to a finite
number `minutes` (that product exactly when a double holds it) and `25 * 60` when it does not.
A firing at a time `t < t₀ + r * 1000` sets `remainingSeconds` to
`⌈(t₀ + r * 1000 - t) / 1000⌉`, which is positive, and leaves the focus counter as it was. -/
theorem startTimer_then_tick (w : World) (t₀ r : Int) (readings : List (Int × Int))
    (hidle : w.state.timer.isRunning = false)
    (hr : w.state.timer.remainingSeconds = .finite r) (hpos : 0 < r)
    (hstart : 0 ≤ t₀) (hend : t₀ + r * 1000 ≤ 2 ^ 53)
    (hearly : ∀ p ∈ readings, 0 ≤ p.1 ∧ p.1 < t₀ + r * 1000) :
    (∀ t nowStats : Int, t₀ + r * 1000 ≤ t → t ≤ 2 ^ 53 →
      remainingAt (.finite (t₀ + r * 1000)) t = .finite 0 ∧
      (tick (fireAll (startTimer w t₀) (freshHandle w.intervals) readings)
        (freshHandle w.intervals) t nowStats).state.timer.isRunning = false ∧
      (tick (fireAll (startTimer w t₀) (freshHandle w.intervals) readings)
        (freshHandle w.intervals) t nowStats).state.timer.interval = none ∧
      (tick (fireAll (startTimer w t₀) (freshHandle w.intervals) readings)
        (freshHandle w.intervals) t nowStats).intervals.lookup (freshHandle w.intervals) =
          none ∧
      (∀ minutes : Int, parseInt w.timerLength = .finite minutes →
        (tick (fireAll (startTimer w t₀) (freshHandle w.intervals) readings)
          (freshHandle w.intervals) t nowStats).state.timer.remainingSeconds =
            (JSNumber.finite minutes).mul (.finite 60)) ∧
      (∀ minutes : Int, parseInt w.timerLength = .finite minutes →
        -(2 ^ 53) ≤ minutes * 60 ∧ minutes * 60 ≤ 2 ^ 53 →
        (tick (fireAll (startTimer w t₀) (freshHandle w.intervals) readings)
          (freshHandle w.intervals) t nowStats).state.timer.remainingSeconds =
            .finite (minutes * 60)) ∧
      ((parseInt w.timerLength).isFinite = false →
        (tick (fireAll (startTimer w t₀) (freshHandle w.intervals) readings)
          (freshHandle w.intervals) t nowStats).state.timer.remainingSeconds =
            .finite (25 * 60)) ∧
      (tick (fireAll (startTimer w t₀) (freshHandle w.intervals) readings)
        (freshHandle w.intervals) t nowStats).state.focusSessions =
          w.state.focusSessions + 1) ∧
    (∀ t nowStats : Int, 0 ≤ t → t < t₀ + r * 1000 →
      (tick (fireAll (startTimer w t₀) (freshHandle w.intervals) readings)
        (freshHandle w.intervals) t nowStats).state.timer.remainingSeconds =
          .finite ⌈((t₀ + r * 1000 - t : Int) : ℚ) / 1000⌉ ∧
      0 < ⌈((t₀ + r * 1000 - t : Int) : ℚ) / 1000⌉ ∧
      (tick (fireAll (startTimer w t₀) (freshHandle w.intervals) readings)
        (freshHandle w.intervals) t nowStats).state.focusSessions = w.state.focusSessions) := by
  have hstartEq : startTimer w t₀ =
      { w with
        state := { w.state with
          timer := { w.state.timer with
            isRunning := true, interval := some (freshHandle w.intervals) } },
        intervals := w.intervals ++ [(freshHandle w.intervals, .finite (t₀ + r * 1000))] } := by
    simp [startTimer, hidle, hr, endTime_of_safe hstart (le_of_lt hpos) hend]
  have hreg : (startTimer w t₀).intervals.lookup (freshHandle w.intervals) =
      some (.finite (t₀ + r * 1000)) := by
    rw [hstartEq]
    exact lookup_append_new _ _ _ (fun p hp => ne_of_lt (lt_freshHandle _ p hp))
  have hrun : (startTimer w t₀).state.timer.isRunning = true := by rw [hstartEq]
  have hint : (startTimer w t₀).state.timer.interval = some (freshHandle w.intervals) := by
    rw [hstartEq]
  have hfocus : (startTimer w t₀).state.focusSessions = w.state.focusSessions := by
    rw [hstartEq]
  have hlen : (startTimer w t₀).timerLength = w.timerLength := by rw [hstartEq]
  obtain ⟨hivs, hrun', hint', hfocus', hlen'⟩ :=
    fireAll_early readings (startTimer w t₀) (freshHandle w.intervals) (t₀ + r * 1000)
      hreg hrun hint (fun p hp => ⟨(hearly p hp).2, by have := (hearly p hp).1; omega⟩)
  have hreg' : (fireAll (startTimer w t₀) (freshHandle w.intervals) readings).intervals.lookup
      (freshHandle w.intervals) = some (.finite (t₀ + r * 1000)) := by rw [hivs, hreg]
  constructor
  · intro t nowStats ht hsafe
    have hgap : t - (t₀ + r * 1000) ≤ 2 ^ 53 := by omega
    obtain ⟨htimer, hf, _, hcleared⟩ :=
      tick_late _ (freshHandle w.intervals) (t₀ + r * 1000) t nowStats hreg' hrun' hint' ht hgap
    rw [hlen', hlen] at htimer
    refine ⟨remainingAt_of_le ht hgap, ?_, ?_, ?_, ?_, ?_, ?_, ?_⟩
    · rw [htimer]
    · rw [htimer]
    · rw [hcleared]
      exact lookup_filter_ne _ _
    · intro minutes hm
      rw [htimer]
      exact sessionSeconds_of_finite hm
    · intro minutes hm hsafeMinutes
      rw [htimer]
      simp only [sessionSeconds_of_finite hm, JSNumber.mul]
      exact toDouble_of_safe hsafeMinutes
    · intro hnot
      rw [htimer]
      exact sessionSeconds_of_not_finite hnot
    · rw [hf, hfocus', hfocus]
  · intro t nowStats ht0 ht
    have hgap : t₀ + r * 1000 - t ≤ 2 ^ 53 := by omega
    rw [tick_early _ (freshHandle w.intervals) (t₀ + r * 1000) t nowStats hreg' ht hgap]
    exact ⟨rfl, (remainingAt_of_lt ht hgap).2, by rw [← hfocus, ← hfocus']⟩

theorem startTimer_then_tick_witness :
    pageFive.state.timer.isRunning = false ∧
    pageFive.state.timer.remainingSeconds = .finite 5 ∧
    (tick (fireAll (startTimer pageFive 1000) (freshHandle pageFive.intervals)
        [(2000, 2000), (3001, 3001)]) (freshHandle pageFive.intervals) 6000 6000).state.timer =
      { remainingSeconds := .finite 1500, interval := none, isRunning := false } ∧
    (tick (fireAll (startTimer pageFive 1000) (freshHandle pageFive.intervals)
        [(2000, 2000), (3001, 3001)]) (freshHandle pageFive.intervals) 6000 6000).state.focusSessions =
      1 ∧
    (tick (fireAll (startTimer { pageFive with timerLength := [49, 48] } 1000) 1 []) 1 6000
        6000).state.timer.remainingSeconds = .finite 600 ∧
    (tick (fireAll (startTimer { pageFive with timerLength := [120] } 1000) 1 []) 1 6000
        6000).state.timer.remainingSeconds = .finite 1500 ∧
    (tick (fireAll (startTimer pageFive 1000) (freshHandle pageFive.intervals)
        [(2000, 2000), (3001, 3001)]) (freshHandle pageFive.intervals) 5999 5999).state.timer.remainingSeconds =
      .finite 1 := by
  have hceil : ⌈(((1000 + 5 * 1000 - 5999 : Int) : ℚ)) / 1000⌉ = 1 := by
    rw [Int.ceil_eq_iff]
    norm_num
  have h := startTimer_then_tick pageFive 1000 5 [(2000, 2000), (3001, 3001)] rfl rfl
    (by decide) (by decide) (by decide) (by decide)
  have hlate := h.1 6000 6000 (by decide) (by decide)
  have hten := (startTimer_then_tick { pageFive with timerLength := [49, 48] } 1000 5 [] rfl rfl
    (by decide) (by decide) (by decide) (by decide)).1 6000 6000 (by decide) (by decide)
  have hword := (startTimer_then_tick { pageFive with timerLength := [120] } 1000 5 [] rfl rfl
    (by decide) (by decide) (by decide) (by decide)).1 6000 6000 (by decide) (by decide)
  refine ⟨rfl, rfl, ?_, hlate.2.2.2.2.2.2.2, ?_, ?_,
    hceil ▸ (h.2 5999 5999 (by decide) (by decide)).1⟩
  · have h1 := hlate.2.1
    have h2 := hlate.2.2.1
    have h3 := hlate.2.2.2.2.2.1 25 (by decide) (by decide)
    revert h1 h2 h3
    generalize (tick (fireAll (startTimer pageFive 1000) (freshHandle pageFive.intervals)
        [(2000, 2000), (3001, 3001)]) (freshHandle pageFive.intervals) 6000 6000).state.timer = tm
    intro h1 h2 h3
    cases tm
    simp only at h1 h2 h3
    rw [h1, h2, h3]
    rfl
  · exact hten.2.2.2.2.2.1 10 (by decide) (by decide)
  · exact hword.2.2.2.2.2.2.1 (by decide)

/-- Which handlers keep `remainingSeconds` at or above 0: `startTimer`, `pauseTimer` and
`handleTimerLengthChange` always do; `resetTimer` and `completeTimerCycle` do exactly when the
session length they read from the field is at or above 0. -/
theorem remainingSeconds_nonneg (w : World) (now : Int)
    (h : (JSNumber.finite 0).le w.state.timer.remainingSeconds = true) :
    (JSNumber.finite 0).le (startTimer w now).state.timer.remainingSeconds = true ∧
    (JSNumber.finite 0).le (pauseTimer w).state.timer.remainingSeconds = true ∧
    (JSNumber.finite 0).le (handleTimerLengthChange w now).state.timer.remainingSeconds = true ∧
    (resetTimer w).state.timer.remainingSeconds = sessionSeconds w.timerLength ∧
    (completeTimerCycle w now).state.timer.remainingSeconds = sessionSeconds w.timerLength := by
  have hpause : (pauseTimer w).timerLength = w.timerLength := by
    unfold pauseTimer
    split <;> rfl
  refine ⟨?_, ?_, ?_, ?_, ?_⟩
  · unfold startTimer
    split <;> exact h
  · unfold pauseTimer
    split <;> exact h
  · unfold handleTimerLengthChange
    split
    · show (JSNumber.finite 0).le (.finite (25 * 60)) = true
      decide
    · next hcond =>
      have hm : (JSNumber.finite 0).le ((parseInt w.timerLength).mul (.finite 60)) = true := by
        cases hp : parseInt w.timerLength with
        | nan => simp [hp, JSNumber.isFinite] at hcond
        | infinity negative => simp [hp, JSNumber.isFinite] at hcond
        | finite minutes =>
          simp only [hp, JSNumber.isFinite, JSNumber.lt, Bool.not_true, Bool.false_or,
            Bool.or_eq_true, decide_eq_true_eq, not_or, not_lt] at hcond
          have hsafe : -(2 ^ 53) ≤ minutes * 60 ∧ minutes * 60 ≤ 2 ^ 53 := by omega
          simp only [JSNumber.mul]
          rw [toDouble_of_safe hsafe]
          simp only [JSNumber.le, decide_eq_true_eq]
          omega
      simp only
      split
      · unfold startTimer
        split <;> exact hm
      · exact hm
  · simp only [resetTimer, hpause]
  · simp only [completeTimerCycle, updateStats, updateStaleIndicator_state, persist_state,
      hpause]

/-- C10 fails on the code.  Take 1500 seconds remaining, the timer idle and `-5` typed into the
session-length field.  After `startTimer` at time 0, the firing at time 1,500,000 completes the
cycle and leaves `remainingSeconds = -300`; so do `resetTimer` and `completeTimerCycle` called
on that page.  The sibling `handleTimerLengthChange` rejects the same field value and falls
back to 25 minutes. -/
theorem completion_negative_remaining :
    (JSNumber.finite 0).le pageTyped.state.timer.remainingSeconds = true ∧
    parseInt pageTyped.timerLength = .finite (-5) ∧
    (tick (startTimer pageTyped 0) 1 1500000 1500000).state.timer.remainingSeconds =
      .finite (-300) ∧
    (resetTimer pageTyped).state.timer.remainingSeconds = .finite (-300) ∧
    (completeTimerCycle pageTyped 0).state.timer.remainingSeconds = .finite (-300) ∧
    (JSNumber.finite 0).le (.finite (-300)) = false ∧
    (handleTimerLengthChange pageTyped 0).state.timer.remainingSeconds = .finite (25 * 60) := by
  refine ⟨by decide, by decide, ?_, by decide, by decide, by decide, by decide⟩
  rw [(tick_late (startTimer pageTyped 0) 1 1500000 1500000 1500000 (by decide) (by decide)
    (by decide) (le_refl _) (by decide)).1]
  decide

end FlowGuard
